import Mathlib

/-!
Verification of the AEX admission/ledger core against its specification.

The definitions in this file are a shallow embedding of the Python source:
  * src/aex/daemon/utils/deterministic.py   (canonical_json, stable_hash_hex)
  * src/aex/daemon/ledger/events.py         (append_hash_event)
  * src/aex/daemon/ledger/replay.py         (verify_hash_chain, replay_ledger_balances)
  * src/aex/daemon/ledger/budget.py         (reserve/commit/release/mark_failed ledger ops)
  * src/aex/daemon/control/router.py        (resolve_route)
  * src/aex/daemon/control/idempotency.py   (execution_id_for_request)
  * src/aex/daemon/control/admission.py     (admit_request, lines 115-188)
  * src/aex/daemon/app/streaming.py         (settlement structure of stream_generator)

Database tables are modelled as association lists / lists of rows; the
`budgets`/`quota_limits` materializations, `rate_windows`, webhook dispatch and
timestamps other than those stored in event payloads are outside the model
(no claim refers to them).  SHA-256 itself is kept abstract: every definition
takes the digest primitive `sha : String → String` as a parameter, and
`stableHash` reproduces the part-plus-newline feeding of `stable_hash_hex`.
-/

namespace AEX

/-- JSON values as handled by the Python `json` module in the embedded code. -/
inductive JValue where
  | null
  | bool (b : Bool)
  | int (n : Int)
  | str (s : String)
  | arr (xs : List JValue)
  | obj (kvs : List (String × JValue))
deriving Inhabited

/-- Four lowercase hex digits, as produced by `json.dumps` ASCII escapes. -/
def hex4 (n : Nat) : String :=
  let dig (k : Nat) : Char :=
    if k < 10 then Char.ofNat (48 + k) else Char.ofNat (87 + k)
  String.mk [dig (n / 4096 % 16), dig (n / 256 % 16), dig (n / 16 % 16), dig (n % 16)]

/-- Escape one character the way `json.dumps(..., ensure_ascii=True)` does. -/
def escapeChar (c : Char) : String :=
  if c = Char.ofNat 34 then "\\\""
  else if c = Char.ofNat 92 then "\\\\"
  else if c = Char.ofNat 10 then "\\n"
  else if c = Char.ofNat 9 then "\\t"
  else if c = Char.ofNat 13 then "\\r"
  else if c = Char.ofNat 8 then "\\b"
  else if c = Char.ofNat 12 then "\\f"
  else if c.toNat < 32 then "\\u" ++ hex4 c.toNat
  else if c.toNat < 127 then String.mk [c]
  else if c.toNat < 65536 then "\\u" ++ hex4 c.toNat
  else
    let v := c.toNat - 65536
    "\\u" ++ hex4 (55296 + v / 1024) ++ "\\u" ++ hex4 (56320 + v % 1024)

/-- JSON string literal with ASCII escapes. -/
def jsonStringLit (s : String) : String :=
  "\"" ++ String.join (s.data.map escapeChar) ++ "\""

/-- Insertion sort of already serialized object entries by key: the
`sort_keys=True` order.  Serializing an entry does not depend on its position,
so sorting keys first and sorting the rendered `key, text` pairs agree. -/
def insertEntry (e : String × String) : List (String × String) → List (String × String)
  | [] => [e]
  | f :: fs => if e.1 ≤ f.1 then e :: f :: fs else f :: insertEntry e fs

def sortEntries : List (String × String) → List (String × String)
  | [] => []
  | e :: es => insertEntry e (sortEntries es)

def joinWith (sep : String) : List String → String
  | [] => ""
  | [x] => x
  | x :: y :: xs => x ++ sep ++ joinWith sep (y :: xs)

mutual

/-- `json.dumps(value, ensure_ascii=True)` with the given item and key
separators, optionally sorting object keys. -/
def renderJson (itemSep kvSep : String) (sortKeys : Bool) : JValue → String
  | .null => "null"
  | .bool true => "true"
  | .bool false => "false"
  | .int n => toString n
  | .str s => jsonStringLit s
  | .arr xs => "[" ++ joinWith itemSep (renderList itemSep kvSep sortKeys xs) ++ "]"
  | .obj kvs =>
      let rendered := renderEntries itemSep kvSep sortKeys kvs
      "\x7b" ++
        joinWith itemSep ((if sortKeys then sortEntries rendered else rendered).map
          (fun e => jsonStringLit e.1 ++ kvSep ++ e.2)) ++
      "\x7d"

def renderList (itemSep kvSep : String) (sortKeys : Bool) : List JValue → List String
  | [] => []
  | x :: xs => renderJson itemSep kvSep sortKeys x :: renderList itemSep kvSep sortKeys xs

def renderEntries (itemSep kvSep : String) (sortKeys : Bool) :
    List (String × JValue) → List (String × String)
  | [] => []
  | (k, v) :: es =>
      (k, renderJson itemSep kvSep sortKeys v) :: renderEntries itemSep kvSep sortKeys es

end

/-- `canonical_json` from deterministic.py: `json.dumps(value, sort_keys=True,
separators=(",", ":"), ensure_ascii=True)`. -/
def canonicalJson (v : JValue) : String :=
  renderJson "," ":" true v

/-- Plain `json.dumps(value, ensure_ascii=True)` (default separators,
insertion order), used by budget.py for the stored response/error bodies. -/
def pyDumps (v : JValue) : String :=
  renderJson ", " ": " false v

/-- Dictionary lookup, `payload.get(key)`. -/
def jGet (kvs : List (String × JValue)) (key : String) : Option JValue :=
  (kvs.find? (fun e => e.1 = key)).map (·.2)

/-- `int(payload.get(key, 0))` for the integer payload fields the replay
auditor reads; the ledger writers only ever store JSON integers there. -/
def jGetInt (kvs : List (String × JValue)) (key : String) : Int :=
  match jGet kvs key with
  | some (.int n) => n
  | _ => 0

/-- `stable_hash_hex(*parts)` feeds each part followed by a newline byte into
SHA-256; the digest primitive is the parameter `sha`. -/
def stableHash (sha : String → String) (parts : List String) : String :=
  sha (String.join (parts.map (fun p => p ++ "\n")))

/-- Python truthiness of an optional string: `None` and `""` are falsy. -/
def pyStrOr (v : Option String) (dflt : String) : String :=
  match v with
  | none => dflt
  | some s => if s = "" then dflt else s

/-- Drop leading whitespace characters. -/
def stripLeading : List Char → List Char
  | [] => []
  | c :: cs => if c.isWhitespace then stripLeading cs else c :: cs

/-- Python `str.strip()`: whitespace removed from both ends (kernel-reducible,
unlike `String.trim`). -/
def pyStrip (s : String) : String :=
  String.mk (stripLeading (stripLeading s.data.reverse).reverse)

/-- `(tenant_id or "default").strip() or "default"` (events.py:32, budget.py:74). -/
def scopeOf (v : Option String) (dflt : String) : String :=
  let s := pyStrip (pyStrOr v dflt)
  if s = "" then dflt else s

/-- The `GENESIS` sentinel (events.py:10). -/
def GENESIS_HASH : String := "GENESIS"

/-- One row of the `event_log` table.  `payload` keeps the parsed dictionary
next to the stored text `payload_json`; `append_hash_event` always stores
`payload_json = canonical_json(payload)`, which is what `json.loads` recovers
in replay.py. -/
structure EventRow where
  seq : Nat
  tenant_id : String
  project_id : String
  chain_partition : String
  execution_id : String
  agent : Option String
  event_type : String
  payload : List (String × JValue)
  payload_json : String
  prev_hash : String
  event_hash : String
deriving Inhabited

/-- Arguments of one `append_hash_event` call. -/
structure AppendCall where
  execution_id : String
  agent : Option String
  tenant_id : Option String
  project_id : Option String
  event_type : String
  payload : List (String × JValue)
deriving Inhabited

/-- The stored hash of the last row of a partition, in insertion order
(events.py:43-47); `GENESIS` when the partition is empty. -/
def lastHash (log : List EventRow) (partition : String) : String :=
  match log.foldl (fun acc row => if row.chain_partition = partition then some row.event_hash else acc)
      (none : Option String) with
  | some h => h
  | none => GENESIS_HASH

/-- `append_hash_event` (events.py:17-59): normalize the tenant scope, read the
last row of the partition, chain the hash and insert the new row.  `seq` is the
table autoincrement, modelled by the current table length. -/
def appendHashEvent (sha : String → String) (log : List EventRow) (call : AppendCall) :
    List EventRow :=
  let payloadJson := canonicalJson (.obj call.payload)
  let tenant := scopeOf call.tenant_id "default"
  let project := scopeOf call.project_id "default"
  let partition := "tenant:" ++ tenant
  let prev := lastHash log partition
  let eventHash := stableHash sha [prev, call.event_type, call.execution_id, payloadJson]
  log ++ [{
    seq := log.length
    tenant_id := tenant
    project_id := project
    chain_partition := partition
    execution_id := call.execution_id
    agent := call.agent
    event_type := call.event_type
    payload := call.payload
    payload_json := payloadJson
    prev_hash := prev
    event_hash := eventHash }]

/-- A full event log built by successive `append_hash_event` calls from empty. -/
def buildLog (sha : String → String) (calls : List AppendCall) : List EventRow :=
  calls.foldl (appendHashEvent sha) []

/-- Outcome of `verify_hash_chain`, keeping the structured content of the
`ReplayResult` dataclass (ok / kind of first deviation with partition, seq,
expected and observed values). -/
inductive ChainVerdict where
  | ok (events : Nat)
  | prevMismatch (partition : String) (seq : Nat) (expected observed : String)
  | hashMismatch (partition : String) (seq : Nat) (expected observed : String)
deriving Repr, DecidableEq

/-- `ORDER BY chain_partition ASC, seq ASC` comparison. -/
def rowLE (a b : EventRow) : Prop :=
  a.chain_partition < b.chain_partition ∨
    (a.chain_partition = b.chain_partition ∧ a.seq ≤ b.seq)

instance : DecidableRel rowLE := fun a b => by
  unfold rowLE; infer_instance

/-- The scan loop of `verify_hash_chain` (replay.py:32-53): a per-partition
dictionary of the previous stored hash, checking the prev link first and the
recomputed hash second, reporting the first deviation. -/
def verifyScan (sha : String → String) : List EventRow → (String → String) → Nat → ChainVerdict
  | [], _, n => .ok n
  | row :: rest, prevBy, n =>
      let partition := if row.chain_partition = "" then "default" else row.chain_partition
      let prev := prevBy partition
      let expected := stableHash sha [prev, row.event_type, row.execution_id, row.payload_json]
      if row.prev_hash ≠ prev then
        .prevMismatch partition row.seq prev row.prev_hash
      else if row.event_hash ≠ expected then
        .hashMismatch partition row.seq expected row.event_hash
      else
        verifyScan sha rest (fun p => if p = partition then row.event_hash else prevBy p) (n + 1)

/-- `verify_hash_chain` (replay.py:21-53): rows ordered by
`(chain_partition, seq)`, scanned once with the per-partition dictionary
initialised to `GENESIS`. -/
def verifyHashChain (sha : String → String) (log : List EventRow) : ChainVerdict :=
  verifyScan sha (log.insertionSort rowLE) (fun _ => GENESIS_HASH) 0

/-! ## Ledger data model (budget.py) -/

/-- `ExecutionState` (budget.py:21-29). -/
inductive ExecState where
  | RESERVING | RESERVED | DISPATCHED | RESPONSE_RECEIVED
  | COMMITTED | RELEASED | DENIED | FAILED
deriving Repr, DecidableEq, Inhabited

/-- `_TERMINAL_STATES` (budget.py:32-37). -/
def isTerminalState : ExecState → Bool
  | .COMMITTED => true
  | .RELEASED => true
  | .DENIED => true
  | .FAILED => true
  | _ => false

/-- `reservations.state` values. -/
inductive ResState where
  | RESERVED | COMMITTED | RELEASED
deriving Repr, DecidableEq, Inhabited

/-- An `agents` row, restricted to the columns the ledger operations read or
write.  Monetary columns are micro-USD integers. -/
structure AgentRow where
  name : String
  tenant_id : String
  project_id : String
  lifecycle_state : String
  budget_micro : Int
  spent_micro : Int
  reserved_micro : Int
  tokens_used_prompt : Int
  tokens_used_completion : Int
deriving Repr, DecidableEq, Inhabited

/-- An `executions` row (columns used by the embedded code). -/
structure ExecutionRow where
  execution_id : String
  tenant_id : String
  project_id : String
  agent : String
  endpoint : String
  request_hash : String
  policy_hash : Option String
  route_hash : Option String
  state : ExecState
  status_code : Option Int
  response_body : Option String
  error_body : Option String
deriving Repr, DecidableEq, Inhabited

/-- A `reservations` row. -/
structure ReservationRow where
  execution_id : String
  tenant_id : String
  project_id : String
  agent : String
  estimated_micro : Int
  actual_micro : Int
  state : ResState
  expiry_at : String
deriving Repr, DecidableEq, Inhabited

/-- A legacy `events` row from `append_compat_event`; the metadata text column
is not modelled (nothing reads it back). -/
structure CompatEvent where
  tenant_id : String
  project_id : String
  agent : Option String
  action : String
  cost_micro : Int
deriving Repr, DecidableEq, Inhabited

/-- The database state touched by the ledger: the `budgets`/`quota_limits`
materializations, `rate_windows` and webhook deliveries are outside the model
(no claim mentions them, and they feed nothing back into these code paths). -/
structure DBState where
  agents : List AgentRow
  executions : List ExecutionRow
  reservations : List ReservationRow
  event_log : List EventRow
  compat : List CompatEvent
deriving Inhabited

def findAgent (st : DBState) (name : String) : Option AgentRow :=
  st.agents.find? (fun a => a.name = name)

def updateAgent (st : DBState) (name : String) (f : AgentRow → AgentRow) : DBState :=
  { st with agents := st.agents.map (fun a => if a.name = name then f a else a) }

def findExecution (st : DBState) (eid : String) : Option ExecutionRow :=
  st.executions.find? (fun e => e.execution_id = eid)

def updateExecution (st : DBState) (eid : String) (f : ExecutionRow → ExecutionRow) : DBState :=
  { st with executions := st.executions.map (fun e => if e.execution_id = eid then f e else e) }

def findReservation (st : DBState) (eid : String) : Option ReservationRow :=
  st.reservations.find? (fun r => r.execution_id = eid)

def updateReservation (st : DBState) (eid : String) (f : ReservationRow → ReservationRow) :
    DBState :=
  { st with reservations := st.reservations.map (fun r => if r.execution_id = eid then f r else r) }

/-- Append a hash-chained event to the state (events.py `append_hash_event`). -/
def stAppendEvent (sha : String → String) (st : DBState) (call : AppendCall) : DBState :=
  { st with event_log := appendHashEvent sha st.event_log call }

/-- `append_compat_event` (events.py:62-80), metadata column dropped. -/
def stAppendCompat (st : DBState) (agent : Option String) (tenant_id project_id : Option String)
    (action : String) (cost_micro : Int) : DBState :=
  { st with compat := st.compat ++
      [{ tenant_id := pyStrOr tenant_id "default"
         project_id := pyStrOr project_id "default"
         agent := agent, action := action, cost_micro := cost_micro }] }

/-- Errors a ledger operation can surface: `HTTPException(status, detail)` or a
`RuntimeError`. -/
inductive LedgerError where
  | http (status : Int) (detail : String)
  | runtime (detail : String)
deriving Repr, DecidableEq

/-- `ReservationDecision` (budget.py:40-49); bodies are kept as the stored JSON
text that `_json_or_none` parses. -/
structure ReservationDecision where
  execution_id : String
  reserved : Bool
  estimated_micro : Int
  reused : Bool
  state : Option ExecState
  status_code : Option Int
  response_body : Option String
  error_body : Option String
deriving Repr, DecidableEq, Inhabited

/-- `CachedExecutionResult` (budget.py:52-57): exactly the four attributes
declared in the source dataclass. -/
structure CachedExecutionResult where
  state : ExecState
  status_code : Option Int
  response_body : Option String
  error_body : Option String
deriving Repr, DecidableEq, Inhabited

/-- `get_execution_cache` (budget.py:137-150): it selects only
`state, status_code, response_body, error_body` from `executions`. -/
def getExecutionCache (st : DBState) (execution_id : String) : Option CachedExecutionResult :=
  (findExecution st execution_id).map (fun row =>
    { state := row.state, status_code := row.status_code
      response_body := row.response_body, error_body := row.error_body })

/-- `COALESCE(NULLIF(col, ''), 'default')`. -/
def coalesceScope (s : String) : String :=
  if s = "" then "default" else s

/-- `lifecycle_state or "READY"`. -/
def lifecycleOrReady (s : String) : String :=
  if s = "" then "READY" else s

/-- budget.py:248-288: insert a RESERVING execution row or refresh the
existing row in place. -/
def reserveExecUpsert (st : DBState) (agent tenantScope projectScope : String)
    (execution_id endpoint request_hash : String)
    (policy_hash route_hash : Option String) (existing : Option ExecutionRow) : DBState :=
  match existing with
  | none =>
    { st with executions := st.executions ++
        [{ execution_id := execution_id, tenant_id := tenantScope
           project_id := projectScope, agent := agent, endpoint := endpoint
           request_hash := request_hash, policy_hash := policy_hash
           route_hash := route_hash, state := .RESERVING
           status_code := none, response_body := none, error_body := none }] }
  | some _ =>
    updateExecution st execution_id (fun ex =>
      { ex with tenant_id := tenantScope, project_id := projectScope
                endpoint := endpoint, request_hash := request_hash
                policy_hash := policy_hash, route_hash := route_hash })

/-- The tail of `reserve_budget_v2` (budget.py:238-402), from the
`RESERVED`-reservation reuse check through insert/update of the execution row,
the budget check with its deny path, and the reservation insert. -/
def reserveBudgetCore (sha : String → String) (st : DBState)
    (agent tenantScope projectScope : String)
    (execution_id endpoint request_hash : String) (estimated_cost_micro : Int)
    (policy_hash route_hash : Option String) (expiry : String)
    (agentRow : AgentRow) (existing : Option ExecutionRow)
    (existingReservation : Option ReservationRow) :
    DBState × Except LedgerError ReservationDecision :=
  if (match existingReservation with | some r => r.state == ResState.RESERVED | none => false) then
    -- budget.py:238-246: reuse the still-open reservation
    (st, .ok { execution_id := execution_id, reserved := false
               estimated_micro :=
                 (match existingReservation with
                  | some r => if r.estimated_micro = 0 then estimated_cost_micro
                              else r.estimated_micro
                  | none => estimated_cost_micro)
               reused := true, state := some .RESERVED
               status_code := none, response_body := none, error_body := none })
  else
    let st1 := reserveExecUpsert st agent tenantScope projectScope execution_id endpoint
      request_hash policy_hash route_hash existing
    -- budget.py:290-334: budget check and deny path
    let remaining := agentRow.budget_micro - agentRow.spent_micro - agentRow.reserved_micro
    if estimated_cost_micro > remaining then
      let errorPayload : List (String × JValue) :=
        [("detail", .str "Insufficient budget"),
         ("estimated_micro", .int estimated_cost_micro),
         ("remaining_micro", .int remaining)]
      let st2 := updateExecution st1 execution_id (fun ex =>
        { ex with state := .DENIED, status_code := some 402
                  error_body := some (pyDumps (.obj errorPayload)) })
      let st3 := stAppendEvent sha st2
        { execution_id := execution_id, agent := some agent
          tenant_id := some tenantScope, project_id := some projectScope
          event_type := "budget.deny", payload := errorPayload }
      let st4 := stAppendCompat st3 (some agent) (some tenantScope) (some projectScope)
        "budget.deny" 0
      (st4, .error (.http 402 "Insufficient budget"))
    else
      -- budget.py:336-355: INSERT ... ON CONFLICT(execution_id) DO NOTHING
      match existingReservation with
      | some _ =>
        (st1, .ok { execution_id := execution_id, reserved := false
                    estimated_micro := estimated_cost_micro, reused := true
                    state := some .RESERVED
                    status_code := none, response_body := none, error_body := none })
      | none =>
        let st2 := { st1 with reservations := st1.reservations ++
          [{ execution_id := execution_id, tenant_id := tenantScope
             project_id := projectScope, agent := agent
             estimated_micro := estimated_cost_micro, actual_micro := 0
             state := .RESERVED, expiry_at := expiry }] }
        let st3 := updateAgent st2 agent (fun a =>
          { a with reserved_micro := a.reserved_micro + estimated_cost_micro })
        let st4 := updateExecution st3 execution_id (fun ex => { ex with state := .RESERVED })
        let st5 := stAppendEvent sha st4
          { execution_id := execution_id, agent := some agent
            tenant_id := some tenantScope, project_id := some projectScope
            event_type := "budget.reserve"
            payload := [("estimated_micro", .int estimated_cost_micro),
                        ("expiry_at", .str expiry)] }
        let st6 := stAppendCompat st5 (some agent) (some tenantScope) (some projectScope)
          "budget.reserve" 0
        (st6, .ok { execution_id := execution_id, reserved := true
                    estimated_micro := estimated_cost_micro, reused := false
                    state := none, status_code := none
                    response_body := none, error_body := none })

/-- `reserve_budget_v2` (budget.py:153-409).  Error results model raised
`HTTPException`s; the returned state carries exactly what the function
committed before returning or raising (a rollback returns the input state,
the deny path commits its writes before raising 402). -/
def reserveBudgetV2 (sha : String → String) (st : DBState)
    (agent : String) (tenant_id project_id : Option String)
    (execution_id endpoint request_hash : String) (estimated_cost_micro : Int)
    (policy_hash route_hash : Option String) (expiry : String) :
    DBState × Except LedgerError ReservationDecision :=
  match findAgent st agent with
  | none => (st, .error (.http 404 "Agent not found"))
  | some agentRow =>
    let tenantScope := scopeOf (some (coalesceScope agentRow.tenant_id)) "default"
    let projectScope := scopeOf (some (coalesceScope agentRow.project_id)) "default"
    if (match tenant_id with | some t => !(t == "") && !(tenantScope == t) | none => false) then
      (st, .error (.http 403 "Agent is not mapped to requested tenant"))
    else if (match project_id with | some p => !(p == "") && !(projectScope == p) | none => false) then
      (st, .error (.http 403 "Agent is not mapped to requested project"))
    else if lifecycleOrReady agentRow.lifecycle_state ≠ "READY" then
      (st, .error (.http 423
        ("Agent state is " ++ agentRow.lifecycle_state ++ "; execution blocked")))
    else
      let existing := findExecution st execution_id
      let existingReservation := findReservation st execution_id
      if (match existing with
          | some ex => !(ex.request_hash == "") && !(ex.request_hash == request_hash)
          | none => false) then
        (st, .error (.http 409
          "Idempotency conflict: execution_id is already bound to a different request hash"))
      else if (match existing with | some ex => isTerminalState ex.state | none => false) then
        match existing with
        | some ex =>
          (st, .ok { execution_id := execution_id, reserved := false
                     estimated_micro := estimated_cost_micro, reused := true
                     state := some ex.state, status_code := ex.status_code
                     response_body := ex.response_body, error_body := ex.error_body })
        | none => (st, .error (.runtime "unreachable"))
      else
        reserveBudgetCore sha st agent tenantScope projectScope execution_id endpoint
          request_hash estimated_cost_micro policy_hash route_hash expiry agentRow
          existing existingReservation

/-- `commit_execution_usage` (budget.py:453-604).  The `rate_windows` token
bump and the post-commit webhook are outside the model.  A raised exception is
an `.error` result with the transaction rolled back (input state returned). -/
def commitExecutionUsage (sha : String → String) (st : DBState)
    (agent execution_id : String) (estimated_cost_micro actual_cost_micro : Int)
    (prompt_tokens completion_tokens : Int) (model_name : Option String)
    (response_body : Option JValue) (status_code : Int) :
    DBState × Except LedgerError Unit :=
  match findExecution st execution_id with
  | none => (st, .error (.runtime ("Execution " ++ execution_id ++ " missing")))
  | some executionRow =>
    let tenantScope := scopeOf (some (coalesceScope executionRow.tenant_id)) "default"
    let projectScope := scopeOf (some (coalesceScope executionRow.project_id)) "default"
    if executionRow.state = ExecState.COMMITTED then
      (st, .ok ())
    else
      -- budget.py:494-512: CAS RESERVED → COMMITTED on the reservation row
      let casFires :=
        match findReservation st execution_id with
        | some r => r.state == ResState.RESERVED
        | none => false
      if casFires then
        let st1 := updateReservation st execution_id (fun r =>
          { r with state := .COMMITTED, actual_micro := actual_cost_micro })
        let st2 := updateAgent st1 agent (fun a =>
          { a with reserved_micro := max 0 (a.reserved_micro - estimated_cost_micro)
                   spent_micro := a.spent_micro + actual_cost_micro
                   tokens_used_prompt := a.tokens_used_prompt + prompt_tokens
                   tokens_used_completion := a.tokens_used_completion + completion_tokens })
        let responseText := response_body.map pyDumps
        let st3 := updateExecution st2 execution_id (fun ex =>
          { ex with state := .COMMITTED, status_code := some status_code
                    response_body := responseText, error_body := none })
        let payload : List (String × JValue) :=
          [("cost_micro", .int actual_cost_micro),
           ("estimated_micro", .int estimated_cost_micro),
           ("prompt_tokens", .int prompt_tokens),
           ("completion_tokens", .int completion_tokens),
           ("model", match model_name with | some m => .str m | none => .null)]
        let st4 := stAppendEvent sha st3
          { execution_id := execution_id, agent := some agent
            tenant_id := some tenantScope, project_id := some projectScope
            event_type := "usage.commit", payload := payload }
        let st5 := stAppendCompat st4 (some agent) (some tenantScope) (some projectScope)
          "usage.commit" actual_cost_micro
        (st5, .ok ())
      else
        match findReservation st execution_id with
        | some r =>
          if r.state = ResState.COMMITTED then (st, .ok ())
          else (st, .error (.runtime "Reservation CAS failed; refusing duplicate settlement"))
        | none =>
          (st, .error (.runtime "Reservation CAS failed; refusing duplicate settlement"))

/-- `status_code or 502` (budget.py:617). -/
def pyIntOr (v : Option Int) (dflt : Int) : Int :=
  match v with
  | none => dflt
  | some n => if n = 0 then dflt else n

/-- `release_execution_reservation` (budget.py:607-707).  It swallows its own
errors and never raises, so the result is just the new state. -/
def releaseExecutionReservation (sha : String → String) (st : DBState)
    (agent execution_id : String) (estimated_cost_micro : Int)
    (reason : String) (status_code : Option Int) : DBState :=
  let status := pyIntOr status_code 502
  match findExecution st execution_id with
  | none => st
  | some executionRow =>
    let tenantScope := scopeOf (some (coalesceScope executionRow.tenant_id)) "default"
    let projectScope := scopeOf (some (coalesceScope executionRow.project_id)) "default"
    -- budget.py:642-644: skip only COMMITTED and RELEASED rows
    if executionRow.state = ExecState.COMMITTED ∨ executionRow.state = ExecState.RELEASED then
      st
    else
      let casFires :=
        match findReservation st execution_id with
        | some r => r.state == ResState.RESERVED
        | none => false
      let st1 :=
        if casFires then
          let sta := updateReservation st execution_id (fun r => { r with state := .RELEASED })
          updateAgent sta agent (fun a =>
            { a with reserved_micro := max 0 (a.reserved_micro - estimated_cost_micro) })
        else st
      let st2 := updateExecution st1 execution_id (fun ex =>
        { ex with state := .RELEASED, status_code := some status
                  error_body := some (pyDumps (.obj [("detail", .str reason)])) })
      let st3 := stAppendEvent sha st2
        { execution_id := execution_id, agent := some agent
          tenant_id := some tenantScope, project_id := some projectScope
          event_type := "reservation.release"
          payload := [("reason", .str reason), ("estimated_micro", .int estimated_cost_micro)] }
      stAppendCompat st3 (some agent) (some tenantScope) (some projectScope)
        "reservation.release" 0

/-- `mark_execution_failed` (budget.py:710-775). -/
def markExecutionFailed (sha : String → String) (st : DBState)
    (execution_id : String) (reason : String) (status_code : Int) : DBState :=
  match findExecution st execution_id with
  | none => st
  | some executionRow =>
    if isTerminalState executionRow.state then st
    else
      let tenantScope := scopeOf (some (coalesceScope executionRow.tenant_id)) "default"
      let projectScope := scopeOf (some (coalesceScope executionRow.project_id)) "default"
      let st1 := updateExecution st execution_id (fun ex =>
        { ex with state := .FAILED, status_code := some status_code
                  error_body := some (pyDumps (.obj [("detail", .str reason)])) })
      let st2 := stAppendEvent sha st1
        { execution_id := execution_id, agent := some executionRow.agent
          tenant_id := some tenantScope, project_id := some projectScope
          event_type := "execution.failed"
          payload := [("reason", .str reason), ("status_code", .int status_code)] }
      stAppendCompat st2 (some executionRow.agent) (some tenantScope) (some projectScope)
        "execution.failed" 0

/-- `mark_execution_dispatched` (budget.py:412-450). -/
def markExecutionDispatched (sha : String → String) (st : DBState)
    (execution_id : String) : DBState :=
  match findExecution st execution_id with
  | none => st
  | some executionRow =>
    if isTerminalState executionRow.state then st
    else
      let tenantScope := scopeOf (some (coalesceScope executionRow.tenant_id)) "default"
      let projectScope := scopeOf (some (coalesceScope executionRow.project_id)) "default"
      let st1 := updateExecution st execution_id (fun ex => { ex with state := .DISPATCHED })
      stAppendEvent sha st1
        { execution_id := execution_id, agent := some executionRow.agent
          tenant_id := some tenantScope, project_id := some projectScope
          event_type := "execution.dispatched"
          payload := [("state", .str "DISPATCHED")] }

/-! ## Balance replay (replay.py:56-105) -/

/-- The per-agent accumulator of `replay_ledger_balances`. -/
structure Balance where
  spent_micro : Int
  reserved_micro : Int
deriving Repr, DecidableEq, Inhabited

/-- One step of the replay fold.  `if not agent: continue` skips rows whose
agent is NULL or empty; `setdefault` starts a fresh zero balance. -/
def replayStep (acc : List (String × Balance)) (row : EventRow) : List (String × Balance) :=
  match row.agent with
  | none => acc
  | some agent =>
    if agent = "" then acc
    else
      let current := ((acc.find? (fun e => e.1 = agent)).map (·.2)).getD ⟨0, 0⟩
      let est := jGetInt row.payload "estimated_micro"
      let next :=
        if row.event_type = "budget.reserve" then
          { current with reserved_micro := current.reserved_micro + est }
        else if row.event_type = "usage.commit" then
          let spent := current.spent_micro + jGetInt row.payload "cost_micro"
          if est > 0 then
            { spent_micro := spent, reserved_micro := max 0 (current.reserved_micro - est) }
          else
            { current with spent_micro := spent }
        else if row.event_type = "reservation.release" then
          if est > 0 then
            { current with reserved_micro := max 0 (current.reserved_micro - est) }
          else current
        else current
      if (acc.find? (fun e => e.1 = agent)).isSome then
        acc.map (fun e => if e.1 = agent then (agent, next) else e)
      else acc ++ [(agent, next)]

/-- The replayed balances of the whole event log, scanned in `seq` order. -/
def replayBalances (log : List EventRow) : List (String × Balance) :=
  log.foldl replayStep []

/-- Replayed balance of one agent (zero when the log never mentions it). -/
def replayedFor (log : List EventRow) (agent : String) : Balance :=
  (((replayBalances log).find? (fun e => e.1 = agent)).map (·.2)).getD ⟨0, 0⟩

/-- `replay_ledger_balances` compares the replayed spent/reserved of every
`agents` row against the live counters; `true` is the `ok` verdict. -/
def replayLedgerBalancesOk (st : DBState) : Bool :=
  st.agents.all (fun a =>
    replayedFor st.event_log a.name == ⟨a.spent_micro, a.reserved_micro⟩)

/-! ## Router (control/router.py) -/

structure ModelCapabilities where
  reasoning : Bool
  tools : Bool
  vision : Bool
deriving Repr, DecidableEq, Inhabited

structure ModelPricing where
  input_micro : Int
  output_micro : Int
deriving Repr, DecidableEq, Inhabited

structure ModelLimits where
  max_tokens : Int
deriving Repr, DecidableEq, Inhabited

structure ModelConfig where
  provider : String
  provider_model : String
  pricing : ModelPricing
  limits : ModelLimits
  capabilities : ModelCapabilities
deriving Repr, DecidableEq, Inhabited

structure ProviderConfig where
  base_url : String
deriving Repr, DecidableEq, Inhabited

/-- The validated `AEXConfig` of config_loader.py (models.yaml). -/
structure AEXConfig where
  providers : List (String × ProviderConfig)
  models : List (String × ModelConfig)
  default_model : Option String
deriving Repr, DecidableEq, Inhabited

def getModel (cfg : AEXConfig) (name : String) : Option ModelConfig :=
  (cfg.models.find? (fun e => e.1 = name)).map (·.2)

def getProvider (cfg : AEXConfig) (name : String) : Option ProviderConfig :=
  (cfg.providers.find? (fun e => e.1 = name)).map (·.2)

/-- `get_default_model`: the configured default when truthy, else the first
configured model name (a validated config has at least one model). -/
def getDefaultModel (cfg : AEXConfig) : String :=
  match cfg.default_model with
  | some d => if d = "" then (cfg.models.head?.map (·.1)).getD "" else d
  | none => (cfg.models.head?.map (·.1)).getD ""

/-- `RoutePlan` (router.py:11-18). -/
structure RoutePlan where
  requested_model : String
  provider_name : String
  provider_model : String
  base_url : String
  upstream_path : String
  route_hash : String
deriving Repr, DecidableEq, Inhabited

/-- `_ENDPOINT_PATH` (router.py:21-29). -/
def endpointPath (endpoint : String) : Option String :=
  if endpoint = "/v1/chat" then some "/chat/completions"
  else if endpoint = "/v1/chat/completions" then some "/chat/completions"
  else if endpoint = "/openai/v1/chat/completions" then some "/chat/completions"
  else if endpoint = "/v1/responses" then some "/responses"
  else if endpoint = "/openai/v1/responses" then some "/responses"
  else if endpoint = "/v1/embeddings" then some "/embeddings"
  else if endpoint = "/openai/v1/embeddings" then some "/embeddings"
  else none

/-- `resolve_route` (router.py:32-63): `(RoutePlan | None, error | None)`. -/
def resolveRoute (sha : String → String) (cfg : AEXConfig) (endpoint model_name : String) :
    Option RoutePlan × Option String :=
  match getModel cfg model_name with
  | none => (none, some ("Model '" ++ model_name ++ "' not allowed"))
  | some modelConfig =>
    match getProvider cfg modelConfig.provider with
    | none => (none, some ("Provider '" ++ modelConfig.provider ++ "' not configured"))
    | some provider =>
      match endpointPath endpoint with
      | none => (none, some ("Unsupported endpoint '" ++ endpoint ++ "'"))
      | some path =>
        let routePayload : List (String × JValue) :=
          [("endpoint", .str endpoint),
           ("provider", .str modelConfig.provider),
           ("provider_model", .str modelConfig.provider_model),
           ("requested_model", .str model_name),
           ("base_url", .str provider.base_url)]
        (some { requested_model := model_name
                provider_name := modelConfig.provider
                provider_model := modelConfig.provider_model
                base_url := provider.base_url
                upstream_path := path
                route_hash := stableHash sha [canonicalJson (.obj routePayload)] },
         none)

/-! ## Admission (control/admission.py, control/idempotency.py) -/

/-- Python truthiness of a JSON value. -/
def jTruthy : JValue → Bool
  | .null => false
  | .bool b => b
  | .int n => n ≠ 0
  | .str s => s ≠ ""
  | .arr xs => ¬xs.isEmpty
  | .obj kvs => ¬kvs.isEmpty

def bodyGet (body : JValue) (key : String) : Option JValue :=
  match body with
  | .obj kvs => jGet kvs key
  | _ => none

/-- `body.get("model") or config_loader.get_default_model()`; the embedding
assumes a request's `model` field, when present, is a JSON string (the
OpenAI-compatible shape the handlers accept). -/
def bodyModelName (cfg : AEXConfig) (body : JValue) : String :=
  match bodyGet body "model" with
  | some (.str s) => if s = "" then getDefaultModel cfg else s
  | _ => getDefaultModel cfg

/-- `canonical_request_hash` (idempotency.py:14-17). -/
def canonicalRequestHash (sha : String → String)
    (agent endpoint : String) (body : JValue) (step_id : String) : String :=
  stableHash sha [agent, endpoint, step_id, canonicalJson body]

/-- `execution_id_for_request` (idempotency.py:20-41). -/
def executionIdForRequest (sha : String → String) (agent endpoint : String) (body : JValue)
    (idempotency_key step_id explicit_execution_id : Option String) : String × String :=
  let normalizedStep := pyStrip (pyStrOr step_id "")
  let reqHash := canonicalRequestHash sha agent endpoint body normalizedStep
  let forced := pyStrip (pyStrOr explicit_execution_id "")
  let executionId :=
    if forced ≠ "" then forced
    else match idempotency_key with
      | some k => if k ≠ "" then stableHash sha [agent, endpoint, pyStrip k] else reqHash
      | none => reqHash
  (executionId, reqHash)

/-- The authenticated `agent_info` dictionary fields admission reads. -/
structure AgentInfo where
  name : String
  lifecycle_state : Option String
  tenant_id : Option String
  project_id : Option String
deriving Repr, DecidableEq, Inhabited

/-- The request headers admission reads. -/
structure ReqHeaders where
  idempotency_key : Option String
  step_id : Option String
deriving Repr, DecidableEq, Inhabited

/-- The attribute names of the `CachedExecutionResult` dataclass, in
declaration order (budget.py:52-57).  A Python attribute access on an
instance succeeds exactly for these names; any other name raises
`AttributeError`. -/
def cachedAttrNames : List String := ["state", "status_code", "response_body", "error_body"]

/-- Result of the modelled prefix of `admit_request` (admission.py:115-188,
through the idempotency lookup).  `.proceed` marks the continuation into rate
limiting, policy and reservation (admission.py:190 onward), which no claim in
this prefix depends on.  `.attributeError` is an uncaught Python
`AttributeError` (surfaced by FastAPI as HTTP 500). -/
inductive AdmissionOutcome where
  | httpError (status : Int) (detail : String)
  | attributeError (attr : String)
  | cachedReplay (status_code : Option Int) (response_body error_body : Option String)
  | proceed (execution_id request_hash model_name : String) (route : RoutePlan)
deriving Repr, DecidableEq, Inhabited

/-- `admit_request` (admission.py:115-188): lifecycle gate, route resolve,
tools capability check, execution id derivation, idempotency cache lookup.
The source line 148 reads `cached.request_hash`; the embedding performs that
attribute access against `cachedAttrNames`.  Because `request_hash` is not
among them, every request whose execution already has a cached row ends in
`.attributeError "request_hash"`, and the conflict/replay/wait logic of lines
148-188 is unreachable (it would need the value of the absent attribute). -/
def admitRequest (sha : String → String) (cfg : AEXConfig) (st : DBState)
    (endpoint : String) (body : JValue) (headers : ReqHeaders) (agent_info : AgentInfo)
    (explicit_execution_id : Option String) : AdmissionOutcome :=
  let agent := agent_info.name
  let lifecycle := pyStrOr agent_info.lifecycle_state "READY"
  if lifecycle ≠ "READY" then
    .httpError 423 ("Agent state is " ++ lifecycle ++ "; execution blocked")
  else
    let modelName := bodyModelName cfg body
    match resolveRoute sha cfg endpoint modelName with
    | (_, some routeError) => .httpError 403 routeError
    | (none, none) => .attributeError "route_hash"
    | (some routePlan, none) =>
      match getModel cfg modelName with
      | none => .attributeError "capabilities"
      | some modelConfig =>
        if jTruthy ((bodyGet body "tools").getD .null) ∧ ¬modelConfig.capabilities.tools then
          .httpError 400 ("Model '" ++ modelName ++ "' does not support tools")
        else
          let ids := executionIdForRequest sha agent endpoint body
            headers.idempotency_key headers.step_id explicit_execution_id
          let executionId := ids.1
          let requestHash := ids.2
          match getExecutionCache st executionId with
          | some _ =>
            if h : "request_hash" ∈ cachedAttrNames then
              absurd h (by decide)
            else
              .attributeError "request_hash"
          | none => .proceed executionId requestHash modelName routePlan

/-! ## Streaming settlement (app/streaming.py:59-145) -/

/-- How the relayed upstream stream ends, as seen by `stream_generator`:
normal completion of the upstream iterator, an exception raised inside the
`try` body (caught by `except Exception`), or a client disconnect that
cancels the generator (only the `finally` block runs). -/
inductive StreamOutcome where
  | completed
  | erroredBeforeSettle
  | clientDisconnected
deriving Repr, DecidableEq, Inhabited

/-- The ledger effect of `stream_generator` (streaming.py:59-145): on normal
end, commit with the accumulated token counts; the `settled` flag is set only
after the commit returns, the `except` handler releases when not settled, and
the `finally` block releases again when not settled.  Token accumulation from
the SSE lines is abstracted into `prompt_tokens`/`completion_tokens`; the
actual cost is recomputed from them exactly as on lines 109-112. -/
def streamGeneratorSettle (sha : String → String) (st : DBState)
    (agent execution_id : String) (estimated_cost_micro : Int)
    (input_micro output_micro : Int) (model_name : String)
    (prompt_tokens completion_tokens : Int) (outcome : StreamOutcome) : DBState :=
  match outcome with
  | .completed =>
    let actual := prompt_tokens * input_micro + completion_tokens * output_micro
    let committed := commitExecutionUsage sha st agent execution_id estimated_cost_micro actual
      prompt_tokens completion_tokens (some model_name)
      (some (.obj [("stream", .bool true),
                   ("usage", .obj [("prompt_tokens", .int prompt_tokens),
                                   ("completion_tokens", .int completion_tokens)])])) 200
    match committed.2 with
    | .ok _ => committed.1
    | .error _ =>
      let st2 := releaseExecutionReservation sha committed.1 agent execution_id
        estimated_cost_micro "Streaming relay failed" (some 502)
      releaseExecutionReservation sha st2 agent execution_id
        estimated_cost_micro "Streaming ended before settlement" (some 502)
  | .erroredBeforeSettle =>
    let st1 := releaseExecutionReservation sha st agent execution_id
      estimated_cost_micro "Streaming relay failed" (some 502)
    releaseExecutionReservation sha st1 agent execution_id
      estimated_cost_micro "Streaming ended before settlement" (some 502)
  | .clientDisconnected =>
    releaseExecutionReservation sha st agent execution_id
      estimated_cost_micro "Streaming ended before settlement" (some 502)

/-! ## Lookup / update lemmas -/

theorem find?_map_of_pres {α : Type} (g : α → α) (p : α → Bool) (l : List α)
    (hp : ∀ a, p (g a) = p a) :
    (l.map g).find? p = (l.find? p).map g := by
  induction l with
  | nil => rfl
  | cons x xs ih =>
    by_cases hx : p x
    · simp [List.find?, hp, hx]
    · simp only [List.map_cons, List.find?]
      rw [hp x]
      simp only [hx]
      exact ih

theorem findAgent_updateAgent_self (st : DBState) (n : String) (f : AgentRow → AgentRow)
    (hf : ∀ a, (f a).name = a.name) :
    findAgent (updateAgent st n f) n = (findAgent st n).map (fun a => if a.name = n then f a else a) := by
  unfold findAgent updateAgent
  exact find?_map_of_pres _ _ _ (by
    intro a
    by_cases h : a.name = n <;> simp [h, hf])

theorem findAgent_updateAgent_other (st : DBState) (n m : String) (f : AgentRow → AgentRow)
    (hf : ∀ a, (f a).name = a.name) (hnm : m ≠ n) :
    findAgent (updateAgent st n f) m = findAgent st m := by
  unfold findAgent updateAgent
  rw [find?_map_of_pres _ _ _ (by
    intro a
    by_cases h : a.name = n <;> simp [h, hf])]
  cases hfind : (st.agents.find? (fun a => a.name = m)) with
  | none => rfl
  | some a =>
    have := List.find?_some hfind
    simp only [decide_eq_true_eq] at this
    simp [this, hnm]

theorem findExecution_updateExecution_self (st : DBState) (eid : String)
    (f : ExecutionRow → ExecutionRow) (hf : ∀ e, (f e).execution_id = e.execution_id) :
    findExecution (updateExecution st eid f) eid =
      (findExecution st eid).map (fun e => if e.execution_id = eid then f e else e) := by
  unfold findExecution updateExecution
  exact find?_map_of_pres _ _ _ (by
    intro e
    by_cases h : e.execution_id = eid <;> simp [h, hf])

theorem findReservation_updateReservation_self (st : DBState) (eid : String)
    (f : ReservationRow → ReservationRow) (hf : ∀ r, (f r).execution_id = r.execution_id) :
    findReservation (updateReservation st eid f) eid =
      (findReservation st eid).map (fun r => if r.execution_id = eid then f r else r) := by
  unfold findReservation updateReservation
  exact find?_map_of_pres _ _ _ (by
    intro r
    by_cases h : r.execution_id = eid <;> simp [h, hf])

theorem find?_append_none {α : Type} (l1 l2 : List α) (p : α → Bool)
    (h : l1.find? p = none) : (l1 ++ l2).find? p = l2.find? p := by
  rw [List.find?_append, h, Option.none_or]

theorem find?_map_update {α : Type} (l : List α) (p : α → Bool) (g : α → α)
    (hskip : ∀ a, p a = false → g a = a) (row : α)
    (hfind : l.find? p = some row) (hkeep : p (g row) = true) :
    (l.map g).find? p = some (g row) := by
  induction l with
  | nil => cases hfind
  | cons x xs ih =>
    by_cases hx : p x
    · rw [List.find?_cons_of_pos _ hx] at hfind
      cases hfind
      simp only [List.map_cons]
      rw [List.find?_cons_of_pos _ hkeep]
    · rw [List.find?_cons_of_neg _ hx] at hfind
      simp only [List.map_cons]
      rw [hskip x (by simpa using hx), List.find?_cons_of_neg _ hx]
      exact ih hfind

theorem findExecution_update_found (st : DBState) (eid : String)
    (f : ExecutionRow → ExecutionRow) (row : ExecutionRow)
    (hrow : findExecution st eid = some row) (hid : (f row).execution_id = eid) :
    findExecution (updateExecution st eid f) eid = some (f row) := by
  have hid0 : row.execution_id = eid := by
    have := List.find?_some hrow
    simpa using this
  unfold findExecution at hrow
  unfold findExecution updateExecution
  have := find?_map_update st.executions (fun e => e.execution_id = eid)
    (fun e => if e.execution_id = eid then f e else e)
    (by intro a ha; simp at ha; simp [ha]) row hrow (by simp [hid0, hid])
  simpa [hid0] using this

theorem findReservation_update_found (st : DBState) (eid : String)
    (f : ReservationRow → ReservationRow) (row : ReservationRow)
    (hrow : findReservation st eid = some row) (hid : (f row).execution_id = eid) :
    findReservation (updateReservation st eid f) eid = some (f row) := by
  have hid0 : row.execution_id = eid := by
    have := List.find?_some hrow
    simpa using this
  unfold findReservation at hrow
  unfold findReservation updateReservation
  have := find?_map_update st.reservations (fun r => r.execution_id = eid)
    (fun r => if r.execution_id = eid then f r else r)
    (by intro a ha; simp at ha; simp [ha]) row hrow (by simp [hid0, hid])
  simpa [hid0] using this

theorem findExecution_eid (st : DBState) (eid : String) (ex : ExecutionRow)
    (h : findExecution st eid = some ex) : ex.execution_id = eid := by
  unfold findExecution at h
  simpa using List.find?_some h

theorem findReservation_eid (st : DBState) (eid : String) (r : ReservationRow)
    (h : findReservation st eid = some r) : r.execution_id = eid := by
  unfold findReservation at h
  simpa using List.find?_some h

theorem findAgent_name (st : DBState) (n : String) (a : AgentRow)
    (h : findAgent st n = some a) : a.name = n := by
  unfold findAgent at h
  simpa using List.find?_some h

theorem findAgent_update_found (st : DBState) (n : String) (f : AgentRow → AgentRow)
    (row : AgentRow) (hrow : findAgent st n = some row) (hid : (f row).name = n) :
    findAgent (updateAgent st n f) n = some (f row) := by
  have hid0 : row.name = n := by
    have := List.find?_some hrow
    simpa using this
  unfold findAgent at hrow
  unfold findAgent updateAgent
  have := find?_map_update st.agents (fun a => a.name = n)
    (fun a => if a.name = n then f a else a)
    (by intro a ha; simp at ha; simp [ha]) row hrow (by simp [hid0, hid])
  simpa [hid0] using this

theorem agents_stAppendEvent (sha : String → String) (st : DBState) (c : AppendCall) :
    (stAppendEvent sha st c).agents = st.agents := rfl

theorem agents_stAppendCompat (st : DBState) (a : Option String) (t p : Option String)
    (act : String) (c : Int) : (stAppendCompat st a t p act c).agents = st.agents := rfl

theorem agents_updateExecution (st : DBState) (e : String) (f : ExecutionRow → ExecutionRow) :
    (updateExecution st e f).agents = st.agents := rfl

theorem agents_updateReservation (st : DBState) (e : String)
    (f : ReservationRow → ReservationRow) : (updateReservation st e f).agents = st.agents := rfl

theorem event_log_updateExecution (st : DBState) (e : String)
    (f : ExecutionRow → ExecutionRow) : (updateExecution st e f).event_log = st.event_log := rfl

theorem event_log_updateReservation (st : DBState) (e : String)
    (f : ReservationRow → ReservationRow) :
    (updateReservation st e f).event_log = st.event_log := rfl

theorem event_log_updateAgent (st : DBState) (n : String) (f : AgentRow → AgentRow) :
    (updateAgent st n f).event_log = st.event_log := rfl

theorem event_log_stAppendCompat (st : DBState) (a : Option String) (t p : Option String)
    (act : String) (c : Int) : (stAppendCompat st a t p act c).event_log = st.event_log := rfl

theorem event_log_stAppendEvent (sha : String → String) (st : DBState) (c : AppendCall) :
    (stAppendEvent sha st c).event_log = appendHashEvent sha st.event_log c := rfl

theorem reservations_stAppendEvent (sha : String → String) (st : DBState) (c : AppendCall) :
    (stAppendEvent sha st c).reservations = st.reservations := rfl

theorem reservations_stAppendCompat (st : DBState) (a : Option String) (t p : Option String)
    (act : String) (c : Int) : (stAppendCompat st a t p act c).reservations = st.reservations := rfl

theorem reservations_updateExecution (st : DBState) (e : String)
    (f : ExecutionRow → ExecutionRow) :
    (updateExecution st e f).reservations = st.reservations := rfl

theorem reservations_updateAgent (st : DBState) (n : String) (f : AgentRow → AgentRow) :
    (updateAgent st n f).reservations = st.reservations := rfl

theorem agents_updateAgent_eq (st : DBState) (n : String) (f : AgentRow → AgentRow) :
    (updateAgent st n f).agents = st.agents.map (fun a => if a.name = n then f a else a) := rfl

theorem reservations_updateReservation_eq (st : DBState) (e : String)
    (f : ReservationRow → ReservationRow) :
    (updateReservation st e f).reservations
      = st.reservations.map (fun r => if r.execution_id = e then f r else r) := rfl

theorem findExecution_stAppendEvent (sha : String → String) (st : DBState) (c : AppendCall)
    (eid : String) : findExecution (stAppendEvent sha st c) eid = findExecution st eid := rfl

theorem findExecution_stAppendCompat (st : DBState) (a : Option String) (t p : Option String)
    (act : String) (c : Int) (eid : String) :
    findExecution (stAppendCompat st a t p act c) eid = findExecution st eid := rfl

theorem findExecution_updateAgent (st : DBState) (n : String) (f : AgentRow → AgentRow)
    (eid : String) : findExecution (updateAgent st n f) eid = findExecution st eid := rfl

theorem findExecution_updateReservation (st : DBState) (e : String)
    (f : ReservationRow → ReservationRow) (eid : String) :
    findExecution (updateReservation st e f) eid = findExecution st eid := rfl

theorem findReservation_stAppendEvent (sha : String → String) (st : DBState) (c : AppendCall)
    (eid : String) : findReservation (stAppendEvent sha st c) eid = findReservation st eid := rfl

theorem findReservation_stAppendCompat (st : DBState) (a : Option String)
    (t p : Option String) (act : String) (c : Int) (eid : String) :
    findReservation (stAppendCompat st a t p act c) eid = findReservation st eid := rfl

theorem findReservation_updateAgent (st : DBState) (n : String) (f : AgentRow → AgentRow)
    (eid : String) : findReservation (updateAgent st n f) eid = findReservation st eid := rfl

theorem findReservation_updateExecution (st : DBState) (e : String)
    (f : ExecutionRow → ExecutionRow) (eid : String) :
    findReservation (updateExecution st e f) eid = findReservation st eid := rfl

theorem findAgent_stAppendEvent (sha : String → String) (st : DBState) (c : AppendCall)
    (n : String) : findAgent (stAppendEvent sha st c) n = findAgent st n := rfl

theorem findAgent_stAppendCompat (st : DBState) (a : Option String) (t p : Option String)
    (act : String) (c : Int) (n : String) :
    findAgent (stAppendCompat st a t p act c) n = findAgent st n := rfl

theorem findAgent_updateExecution (st : DBState) (e : String) (f : ExecutionRow → ExecutionRow)
    (n : String) : findAgent (updateExecution st e f) n = findAgent st n := rfl

theorem findAgent_updateReservation (st : DBState) (e : String)
    (f : ReservationRow → ReservationRow) (n : String) :
    findAgent (updateReservation st e f) n = findAgent st n := rfl

/-! ## Concrete fixtures shared by witnesses and counterexamples -/

/-- A concrete digest primitive for closed instances: the identity on the
joined input (the structural part of `stable_hash_hex` without SHA-256). -/
def shaId : String → String := fun s => s

def agentA : AgentRow :=
  { name := "alice", tenant_id := "", project_id := "", lifecycle_state := ""
    budget_micro := 100, spent_micro := 0, reserved_micro := 0
    tokens_used_prompt := 0, tokens_used_completion := 0 }

/-- Fresh single-agent database: budget 100 micro-USD, nothing spent. -/
def stFresh : DBState := ⟨[agentA], [], [], [], []⟩

def agentB : AgentRow := { agentA with budget_micro := 10 }

/-- Fresh single-agent database with budget 10 micro-USD. -/
def stSmall : DBState := ⟨[agentB], [], [], [], []⟩

/-- A one-model, one-provider routing configuration. -/
def cfgOne : AEXConfig :=
  { providers := [("prov", { base_url := "http://upstream" })]
    models := [("m1", { provider := "prov", provider_model := "pm1"
                        pricing := ⟨2, 3⟩, limits := ⟨100⟩
                        capabilities := ⟨false, true, false⟩ })]
    default_model := some "m1" }

/-- A plain chat body naming the configured model. -/
def bodyChat : JValue :=
  .obj [("model", .str "m1"),
        ("messages", .arr [.obj [("role", .str "user"), ("content", .str "hi")]])]

def headersK : ReqHeaders := ⟨some "K", none⟩

def agentInfoA : AgentInfo := ⟨"alice", none, none, none⟩

/-! ## C9 — route-resolve error statuses -/

/-- C9, counterexample.  The claim says an endpoint that is not in the
supported endpoint map fails with HTTP 400 (UNSUPPORTED_ENDPOINT); on the
code, admission maps every `resolve_route` error to HTTP 403
(admission.py:128-130), so the unsupported-endpoint failure carries 403. -/
theorem C9_unknown_endpoint_status_counterexample :
    admitRequest shaId cfgOne stFresh "/v1/tools/execute" bodyChat headersK agentInfoA none =
      .httpError 403 "Unsupported endpoint '/v1/tools/execute'" ∧
    (403 : Int) ≠ 400 := by
  exact ⟨rfl, by decide⟩

/-- C9, amended.  During admission's route-resolve step, a request naming a
model that is not configured fails with HTTP 403 (`Model ... not allowed`),
and a request to an endpoint that is not in the supported endpoint map also
fails with HTTP 403 (`Unsupported endpoint ...`): admission raises 403 for
every route-resolve error. -/
theorem C9_route_resolve_errors (sha : String → String) (cfg : AEXConfig) (st : DBState)
    (endpoint : String) (body : JValue) (headers : ReqHeaders) (ai : AgentInfo)
    (eid : Option String)
    (hlc : pyStrOr ai.lifecycle_state "READY" = "READY") :
    (getModel cfg (bodyModelName cfg body) = none →
      admitRequest sha cfg st endpoint body headers ai eid =
        .httpError 403 ("Model '" ++ bodyModelName cfg body ++ "' not allowed")) ∧
    (∀ mc prov, getModel cfg (bodyModelName cfg body) = some mc →
      getProvider cfg mc.provider = some prov →
      endpointPath endpoint = none →
      admitRequest sha cfg st endpoint body headers ai eid =
        .httpError 403 ("Unsupported endpoint '" ++ endpoint ++ "'")) := by
  constructor
  · intro hmodel
    unfold admitRequest
    simp [hlc, resolveRoute, hmodel]
  · intro mc prov hmc hprov hpath
    unfold admitRequest
    simp [hlc, resolveRoute, hmc, hprov, hpath]

/-- C9 witness: both 403 outcomes at concrete inputs. -/
theorem C9_route_resolve_errors_witness :
    admitRequest shaId cfgOne stFresh "/v1/chat/completions" (.obj [("model", .str "zz")])
      headersK agentInfoA none = .httpError 403 "Model 'zz' not allowed" ∧
    admitRequest shaId cfgOne stFresh "/v1/unknown" bodyChat headersK agentInfoA none =
      .httpError 403 "Unsupported endpoint '/v1/unknown'" :=
  ⟨(C9_route_resolve_errors shaId cfgOne stFresh "/v1/chat/completions"
      (.obj [("model", .str "zz")]) headersK agentInfoA none rfl).1 rfl,
   (C9_route_resolve_errors shaId cfgOne stFresh "/v1/unknown" bodyChat headersK
      agentInfoA none rfl).2
      { provider := "prov", provider_model := "pm1", pricing := ⟨2, 3⟩
        limits := ⟨100⟩, capabilities := ⟨false, true, false⟩ }
      { base_url := "http://upstream" } rfl rfl rfl⟩

/-! ## C1 — idempotent replay of cached terminal executions -/

/-- C1.  The claim says admission returns the cached status and body as an
idempotent replay whenever the derived execution_id has a terminal row with
the same request_hash.  On the code this path can never complete:
admission.py:148 evaluates `cached.request_hash`, but `get_execution_cache`
returns a `CachedExecutionResult` whose dataclass (budget.py:52-57) has no
`request_hash` attribute, so any request that finds a cached row — terminal
or not, matching hash or not — dies with an uncaught `AttributeError`
(HTTP 500) before the replay return on admission.py:153-167 is reached. -/
theorem C1_cached_lookup_raises_attribute_error (sha : String → String) (cfg : AEXConfig)
    (st : DBState) (endpoint : String) (body : JValue) (headers : ReqHeaders)
    (ai : AgentInfo) (eid : Option String) (plan : RoutePlan) (mc : ModelConfig)
    (cached : CachedExecutionResult)
    (hlc : pyStrOr ai.lifecycle_state "READY" = "READY")
    (hroute : resolveRoute sha cfg endpoint (bodyModelName cfg body) = (some plan, none))
    (hmc : getModel cfg (bodyModelName cfg body) = some mc)
    (htools : ¬(jTruthy ((bodyGet body "tools").getD .null) ∧ ¬mc.capabilities.tools))
    (hcached : getExecutionCache st
      (executionIdForRequest sha ai.name endpoint body
        headers.idempotency_key headers.step_id eid).1 = some cached) :
    admitRequest sha cfg st endpoint body headers ai eid = .attributeError "request_hash" := by
  unfold admitRequest
  simp only [hlc, hroute, hmc, hcached]
  rw [if_neg htools]
  rw [dif_neg (by decide)]
  rw [if_neg (by simp)]

/-- A COMMITTED execution row for the execution_id that `Idempotency-Key: K`
derives for `bodyChat`, carrying the same request_hash the body hashes to. -/
def cachedRowC1 : ExecutionRow :=
  { execution_id := (executionIdForRequest shaId "alice" "/v1/chat/completions"
      bodyChat (some "K") none none).1
    tenant_id := "default", project_id := "default", agent := "alice"
    endpoint := "/v1/chat/completions"
    request_hash := (executionIdForRequest shaId "alice" "/v1/chat/completions"
      bodyChat (some "K") none none).2
    policy_hash := none, route_hash := none, state := .COMMITTED
    status_code := some 200, response_body := some "cached-body", error_body := none }

def stCachedC1 : DBState := ⟨[agentA], [cachedRowC1], [], [], []⟩

/-- C1 witness: a concrete second POST (same body, same Idempotency-Key)
whose first execution is COMMITTED ends in the AttributeError. -/
theorem C1_cached_lookup_raises_attribute_error_witness :
    admitRequest shaId cfgOne stCachedC1 "/v1/chat/completions" bodyChat headersK
      agentInfoA none = .attributeError "request_hash" :=
  C1_cached_lookup_raises_attribute_error shaId cfgOne stCachedC1 "/v1/chat/completions"
    bodyChat headersK agentInfoA none
    { requested_model := "m1", provider_name := "prov", provider_model := "pm1"
      base_url := "http://upstream", upstream_path := "/chat/completions"
      route_hash := stableHash shaId [canonicalJson (.obj
        [("endpoint", .str "/v1/chat/completions"), ("provider", .str "prov"),
         ("provider_model", .str "pm1"), ("requested_model", .str "m1"),
         ("base_url", .str "http://upstream")])] }
    { provider := "prov", provider_model := "pm1", pricing := ⟨2, 3⟩
      limits := ⟨100⟩, capabilities := ⟨false, true, false⟩ }
    { state := .COMMITTED, status_code := some 200
      response_body := some "cached-body", error_body := none }
    rfl rfl rfl (by decide) (by decide)

/-! ## Shared concrete ledger traces -/

/-- Reserve `e1` for 5 micro on the budget-10 agent. -/
def stepR1 : DBState :=
  (reserveBudgetV2 shaId stSmall "alice" none none "e1" "/v1/chat/completions" "h1"
    5 none none "t1").1

/-- Then try to reserve `e2` for 100 micro: denied (remaining is 5). -/
def stepR2 : DBState :=
  (reserveBudgetV2 shaId stepR1 "alice" none none "e2" "/v1/chat/completions" "h2"
    100 none none "t2").1

/-- Then release the DENIED execution `e2` with estimated 3. -/
def stepRel : DBState :=
  releaseExecutionReservation shaId stepR2 "alice" "e2" 3 "recover" none

/-- Commit `e1` for an actual cost of 4 (within its estimate). -/
def stepC1 : DBState :=
  (commitExecutionUsage shaId stepR1 "alice" "e1" 5 4 1 2 (some "m1") none 200).1

/-! ## Branch lemmas for `release_execution_reservation` -/

theorem releaseExecutionReservation_no_exec (sha : String → String) (st : DBState)
    (agent eid : String) (est : Int) (reason : String) (sc : Option Int)
    (hex : findExecution st eid = none) :
    releaseExecutionReservation sha st agent eid est reason sc = st := by
  unfold releaseExecutionReservation
  rw [hex]

theorem releaseExecutionReservation_skip (sha : String → String) (st : DBState)
    (agent eid : String) (est : Int) (reason : String) (sc : Option Int)
    (ex : ExecutionRow) (hex : findExecution st eid = some ex)
    (hskip : ex.state = .COMMITTED ∨ ex.state = .RELEASED) :
    releaseExecutionReservation sha st agent eid est reason sc = st := by
  unfold releaseExecutionReservation
  rw [hex]
  simp only []
  rw [if_pos hskip]

/-- The CAS-success branch of release: reservation RELEASED, reserved_micro
decremented with the floor at 0, execution RELEASED, event appended. -/
theorem releaseExecutionReservation_cas (sha : String → String) (st : DBState)
    (agent eid : String) (est : Int) (reason : String) (sc : Option Int)
    (ex : ExecutionRow) (hex : findExecution st eid = some ex)
    (hns : ¬(ex.state = ExecState.COMMITTED ∨ ex.state = ExecState.RELEASED))
    (r : ReservationRow) (hres : findReservation st eid = some r)
    (hr : r.state = .RESERVED) :
    releaseExecutionReservation sha st agent eid est reason sc
      = stAppendCompat
          (stAppendEvent sha
            (updateExecution
              (updateAgent
                (updateReservation st eid (fun r => { r with state := .RELEASED }))
                agent (fun a =>
                  { a with reserved_micro := max 0 (a.reserved_micro - est) }))
              eid (fun e =>
                { e with state := .RELEASED, status_code := some (pyIntOr sc 502)
                         error_body := some (pyDumps (.obj [("detail", .str reason)])) }))
            { execution_id := eid, agent := some agent
              tenant_id := some (scopeOf (some (coalesceScope ex.tenant_id)) "default")
              project_id := some (scopeOf (some (coalesceScope ex.project_id)) "default")
              event_type := "reservation.release"
              payload := [("reason", .str reason), ("estimated_micro", .int est)] })
          (some agent) (some (scopeOf (some (coalesceScope ex.tenant_id)) "default"))
          (some (scopeOf (some (coalesceScope ex.project_id)) "default"))
          "reservation.release" 0 := by
  unfold releaseExecutionReservation
  simp [hex, hns, hres, hr]

/-- The no-CAS branch of release: the reservation (if any) and the agent
counters are untouched; the execution row is still overwritten to RELEASED
and a `reservation.release` event is still appended. -/
theorem releaseExecutionReservation_nocas (sha : String → String) (st : DBState)
    (agent eid : String) (est : Int) (reason : String) (sc : Option Int)
    (ex : ExecutionRow) (hex : findExecution st eid = some ex)
    (hns : ¬(ex.state = ExecState.COMMITTED ∨ ex.state = ExecState.RELEASED))
    (hcas : (match findReservation st eid with
             | some r => r.state == ResState.RESERVED
             | none => false) = false) :
    releaseExecutionReservation sha st agent eid est reason sc
      = stAppendCompat
          (stAppendEvent sha
            (updateExecution st eid (fun e =>
                { e with state := .RELEASED, status_code := some (pyIntOr sc 502)
                         error_body := some (pyDumps (.obj [("detail", .str reason)])) }))
            { execution_id := eid, agent := some agent
              tenant_id := some (scopeOf (some (coalesceScope ex.tenant_id)) "default")
              project_id := some (scopeOf (some (coalesceScope ex.project_id)) "default")
              event_type := "reservation.release"
              payload := [("reason", .str reason), ("estimated_micro", .int est)] })
          (some agent) (some (scopeOf (some (coalesceScope ex.tenant_id)) "default"))
          (some (scopeOf (some (coalesceScope ex.project_id)) "default"))
          "reservation.release" 0 := by
  unfold releaseExecutionReservation
  simp [hex, hns, hcas]

/-! ## C8 — release on terminal executions -/

/-- C8, counterexample.  The claim says release is a no-op for every terminal
state, DENIED included.  On the code the skip set is only
{COMMITTED, RELEASED} (budget.py:642): releasing the DENIED execution `e2`
overwrites its state to RELEASED and its status_code from 402 to 502. -/
theorem C8_release_on_denied_changes_row_counterexample :
    (findExecution stepR2 "e2").map (fun e => (e.state, e.status_code)) =
      some (.DENIED, some 402) ∧
    (findExecution stepRel "e2").map (fun e => (e.state, e.status_code)) =
      some (.RELEASED, some 502) := by
  exact ⟨by decide, by decide⟩

/-- C8, amended.  `release_execution_reservation` is a no-op exactly on the
skip set the code checks: executions already COMMITTED or RELEASED.  A DENIED
or FAILED execution is not skipped — the release overwrites its state to
RELEASED with status 502 (counterexample), though the reservation row and
`agents.reserved_micro` still change only when a RESERVED reservation
exists. -/
theorem C8_release_skips_committed_released (sha : String → String) (st : DBState)
    (agent eid : String) (est : Int) (reason : String) (sc : Option Int)
    (ex : ExecutionRow) (hex : findExecution st eid = some ex)
    (hstate : ex.state = .COMMITTED ∨ ex.state = .RELEASED) :
    releaseExecutionReservation sha st agent eid est reason sc = st := by
  unfold releaseExecutionReservation
  rw [hex]
  simp only []
  rw [if_pos hstate]

/-- C8 witness: releasing the COMMITTED execution `e1` changes nothing. -/
theorem C8_release_skips_committed_released_witness :
    releaseExecutionReservation shaId stepC1 "alice" "e1" 5 "late release" none = stepC1 :=
  C8_release_skips_committed_released shaId stepC1 "alice" "e1" 5 "late release" none
    { execution_id := "e1", tenant_id := "default", project_id := "default"
      agent := "alice", endpoint := "/v1/chat/completions", request_hash := "h1"
      policy_hash := none, route_hash := none, state := .COMMITTED
      status_code := some 200, response_body := none, error_body := none }
    (by decide) (Or.inl rfl)

/-! ## C10 — execution_id to request_hash binding is immutable -/

/-- C10.  Once an executions row carries a non-empty request_hash, any
`reserve_budget_v2` call for the same execution_id with a different
request_hash fails with HTTP 409 and leaves the state untouched — for any
state of the existing execution, terminal or in flight, because the conflict
check (budget.py:218-223) runs before the terminal-reuse branch. -/
theorem C10_request_hash_binding_immutable (sha : String → String) (st : DBState)
    (agent : String) (eid endpoint request_hash : String) (est : Int)
    (ph rth : Option String) (expiry : String)
    (agentRow : AgentRow) (hagent : findAgent st agent = some agentRow)
    (hlc : lifecycleOrReady agentRow.lifecycle_state = "READY")
    (ex : ExecutionRow) (hex : findExecution st eid = some ex)
    (hne1 : ex.request_hash ≠ "") (hne2 : ex.request_hash ≠ request_hash) :
    reserveBudgetV2 sha st agent none none eid endpoint request_hash est ph rth expiry =
      (st, .error (.http 409
        "Idempotency conflict: execution_id is already bound to a different request hash")) := by
  unfold reserveBudgetV2
  simp [hagent, hex, hlc, hne1, hne2]

/-- C10 witness: rebinding `e1` (in-flight, RESERVED, hash `h1`) to a different
request hash is refused with 409 and no change. -/
theorem C10_request_hash_binding_immutable_witness :
    reserveBudgetV2 shaId stepR1 "alice" none none "e1" "/v1/chat/completions"
      "different-hash" 5 none none "t9" =
      (stepR1, .error (.http 409
        "Idempotency conflict: execution_id is already bound to a different request hash")) :=
  C10_request_hash_binding_immutable shaId stepR1 "alice" "e1" "/v1/chat/completions"
    "different-hash" 5 none none "t9"
    { agentB with reserved_micro := 5 } (by decide) rfl
    { execution_id := "e1", tenant_id := "default", project_id := "default"
      agent := "alice", endpoint := "/v1/chat/completions", request_hash := "h1"
      policy_hash := none, route_hash := none, state := .RESERVED
      status_code := none, response_body := none, error_body := none }
    (by decide) (by decide) (by decide)

/-! ## Branch lemmas for `reserve_budget_v2` -/

/-- With the agent found and READY, no scope assertion, no prior execution and
no prior reservation, `reserve_budget_v2` reduces to its core. -/
theorem reserveBudgetV2_fresh_to_core (sha : String → String) (st : DBState) (agent : String)
    (eid endpoint rh : String) (est : Int) (ph rth : Option String) (expiry : String)
    (agentRow : AgentRow) (hagent : findAgent st agent = some agentRow)
    (hlc : lifecycleOrReady agentRow.lifecycle_state = "READY")
    (hex : findExecution st eid = none) (hres : findReservation st eid = none) :
    reserveBudgetV2 sha st agent none none eid endpoint rh est ph rth expiry
      = reserveBudgetCore sha st agent
          (scopeOf (some (coalesceScope agentRow.tenant_id)) "default")
          (scopeOf (some (coalesceScope agentRow.project_id)) "default")
          eid endpoint rh est ph rth expiry agentRow none none := by
  unfold reserveBudgetV2
  simp [hagent, hex, hres, hlc]

/-- The deny branch of the core: the full committed deny state and the 402. -/
theorem reserveBudgetCore_deny (sha : String → String) (st : DBState)
    (agent ts ps eid endpoint rh : String) (est : Int) (ph rth : Option String)
    (expiry : String) (agentRow : AgentRow)
    (hover : est > agentRow.budget_micro - agentRow.spent_micro - agentRow.reserved_micro) :
    reserveBudgetCore sha st agent ts ps eid endpoint rh est ph rth expiry agentRow none none
      = (stAppendCompat
          (stAppendEvent sha
            (updateExecution
              { st with executions := st.executions ++
                 [{ execution_id := eid, tenant_id := ts, project_id := ps, agent := agent
                    endpoint := endpoint, request_hash := rh, policy_hash := ph
                    route_hash := rth, state := .RESERVING, status_code := none
                    response_body := none, error_body := none }] }
              eid (fun ex =>
                { ex with state := .DENIED, status_code := some 402
                          error_body := some (pyDumps (.obj
                            [("detail", .str "Insufficient budget"),
                             ("estimated_micro", .int est),
                             ("remaining_micro", .int (agentRow.budget_micro -
                               agentRow.spent_micro - agentRow.reserved_micro))])) }))
            { execution_id := eid, agent := some agent, tenant_id := some ts
              project_id := some ps, event_type := "budget.deny"
              payload := [("detail", .str "Insufficient budget"),
                          ("estimated_micro", .int est),
                          ("remaining_micro", .int (agentRow.budget_micro -
                            agentRow.spent_micro - agentRow.reserved_micro))] })
          (some agent) (some ts) (some ps) "budget.deny" 0,
        .error (.http 402 "Insufficient budget")) := by
  unfold reserveBudgetCore
  simp [hover]
  rfl

/-- The success branch of the core: reservation inserted, `reserved_micro`
incremented, execution RESERVED, `budget.reserve` event appended. -/
theorem reserveBudgetCore_success (sha : String → String) (st : DBState)
    (agent ts ps eid endpoint rh : String) (est : Int) (ph rth : Option String)
    (expiry : String) (agentRow : AgentRow)
    (hunder : ¬est > agentRow.budget_micro - agentRow.spent_micro - agentRow.reserved_micro) :
    reserveBudgetCore sha st agent ts ps eid endpoint rh est ph rth expiry agentRow none none
      = (stAppendCompat
          (stAppendEvent sha
            (updateExecution
              (updateAgent
                { st with
                  executions := st.executions ++
                    [{ execution_id := eid, tenant_id := ts, project_id := ps, agent := agent
                       endpoint := endpoint, request_hash := rh, policy_hash := ph
                       route_hash := rth, state := .RESERVING, status_code := none
                       response_body := none, error_body := none }]
                  reservations := st.reservations ++
                    [{ execution_id := eid, tenant_id := ts, project_id := ps, agent := agent
                       estimated_micro := est, actual_micro := 0, state := .RESERVED
                       expiry_at := expiry }] }
                agent (fun a => { a with reserved_micro := a.reserved_micro + est }))
              eid (fun ex => { ex with state := .RESERVED }))
            { execution_id := eid, agent := some agent, tenant_id := some ts
              project_id := some ps, event_type := "budget.reserve"
              payload := [("estimated_micro", .int est), ("expiry_at", .str expiry)] })
          (some agent) (some ts) (some ps) "budget.reserve" 0,
        .ok { execution_id := eid, reserved := true, estimated_micro := est, reused := false
              state := none, status_code := none, response_body := none, error_body := none }) := by
  unfold reserveBudgetCore
  simp [hunder]
  rfl

/-! ## C3 — budget deny path -/

/-- C3.  On a fresh execution (READY agent, no scope assertion, no prior row,
no prior reservation), `reserve_budget_v2` raises HTTP 402 exactly when the
estimate exceeds `remaining = budget - spent - reserved`; in that case it has
persisted the execution as DENIED with status 402 and the insufficient-budget
error body, appended a hash-chained `budget.deny` event for it, and left the
`agents` rows (in particular `spent_micro` and `reserved_micro`) unchanged. -/
theorem C3_deny_iff_over_budget (sha : String → String) (st : DBState) (agent : String)
    (eid endpoint rh : String) (est : Int) (ph rth : Option String) (expiry : String)
    (agentRow : AgentRow) (hagent : findAgent st agent = some agentRow)
    (hlc : lifecycleOrReady agentRow.lifecycle_state = "READY")
    (hex : findExecution st eid = none) (hres : findReservation st eid = none) :
    ((reserveBudgetV2 sha st agent none none eid endpoint rh est ph rth expiry).2 =
        .error (.http 402 "Insufficient budget") ↔
      est > agentRow.budget_micro - agentRow.spent_micro - agentRow.reserved_micro) ∧
    (est > agentRow.budget_micro - agentRow.spent_micro - agentRow.reserved_micro →
      (reserveBudgetV2 sha st agent none none eid endpoint rh est ph rth expiry).1.agents
          = st.agents ∧
      (findExecution
          (reserveBudgetV2 sha st agent none none eid endpoint rh est ph rth expiry).1 eid).map
          (fun e => (e.state, e.status_code, e.request_hash, e.error_body)) =
        some (.DENIED, some 402, rh, some (pyDumps (.obj
          [("detail", .str "Insufficient budget"),
           ("estimated_micro", .int est),
           ("remaining_micro", .int (agentRow.budget_micro - agentRow.spent_micro -
             agentRow.reserved_micro))]))) ∧
      ∃ ev,
        (reserveBudgetV2 sha st agent none none eid endpoint rh est ph rth expiry).1.event_log
            = st.event_log ++ [ev] ∧
        ev.event_type = "budget.deny" ∧
        ev.execution_id = eid ∧
        ev.payload = [("detail", .str "Insufficient budget"),
                      ("estimated_micro", .int est),
                      ("remaining_micro", .int (agentRow.budget_micro - agentRow.spent_micro -
                        agentRow.reserved_micro))] ∧
        ev.prev_hash = lastHash st.event_log ev.chain_partition ∧
        ev.event_hash = stableHash sha [ev.prev_hash, "budget.deny", eid,
          canonicalJson (.obj ev.payload)]) := by
  have hcore := reserveBudgetV2_fresh_to_core sha st agent eid endpoint rh est ph rth expiry
    agentRow hagent hlc hex hres
  by_cases hover : est > agentRow.budget_micro - agentRow.spent_micro - agentRow.reserved_micro
  · have hval := reserveBudgetCore_deny sha st agent
      (scopeOf (some (coalesceScope agentRow.tenant_id)) "default")
      (scopeOf (some (coalesceScope agentRow.project_id)) "default")
      eid endpoint rh est ph rth expiry agentRow hover
    rw [hcore, hval]
    refine ⟨by simp [hover], fun _ => ⟨rfl, ?_, ?_⟩⟩
    · have hins : findExecution
          { st with executions := st.executions ++
             [{ execution_id := eid,
                tenant_id := scopeOf (some (coalesceScope agentRow.tenant_id)) "default",
                project_id := scopeOf (some (coalesceScope agentRow.project_id)) "default",
                agent := agent, endpoint := endpoint, request_hash := rh, policy_hash := ph
                route_hash := rth, state := ExecState.RESERVING, status_code := none
                response_body := none, error_body := none }] } eid
          = some { execution_id := eid,
                   tenant_id := scopeOf (some (coalesceScope agentRow.tenant_id)) "default",
                   project_id := scopeOf (some (coalesceScope agentRow.project_id)) "default",
                   agent := agent, endpoint := endpoint, request_hash := rh, policy_hash := ph
                   route_hash := rth, state := ExecState.RESERVING, status_code := none
                   response_body := none, error_body := none } := by
        unfold findExecution at hex ⊢
        simp only []
        rw [find?_append_none _ _ _ hex]
        simp
      rw [findExecution_stAppendCompat, findExecution_stAppendEvent,
        findExecution_update_found _ _ _ _ hins rfl]
      simp
    · exact ⟨_, rfl, rfl, rfl, rfl, rfl, rfl⟩
  · have hval := reserveBudgetCore_success sha st agent
      (scopeOf (some (coalesceScope agentRow.tenant_id)) "default")
      (scopeOf (some (coalesceScope agentRow.project_id)) "default")
      eid endpoint rh est ph rth expiry agentRow hover
    rw [hcore, hval]
    exact ⟨by simp [hover], fun h => absurd h hover⟩

/-- C3 witness: on the budget-10 agent, reserving 100 for `e2` (remaining 5
after `e1`) yields 402 with the DENIED row and the chained deny event, and
reserving 5 for `e1` on the fresh state does not yield 402. -/
theorem C3_deny_iff_over_budget_witness :
    ((reserveBudgetV2 shaId stepR1 "alice" none none "e2" "/v1/chat/completions" "h2"
        100 none none "t2").2 = .error (.http 402 "Insufficient budget") ↔
      (100 : Int) > 10 - 0 - 5) ∧
    ((reserveBudgetV2 shaId stSmall "alice" none none "e1" "/v1/chat/completions" "h1"
        5 none none "t1").2 = .error (.http 402 "Insufficient budget") ↔
      (5 : Int) > 10 - 0 - 0) :=
  ⟨(C3_deny_iff_over_budget shaId stepR1 "alice" "e2" "/v1/chat/completions" "h2" 100
      none none "t2" { agentB with reserved_micro := 5 } (by decide) rfl (by decide)
      (by decide)).1,
   (C3_deny_iff_over_budget shaId stSmall "alice" "e1" "/v1/chat/completions" "h1" 5
      none none "t1" agentB (by decide) rfl (by decide) (by decide)).1⟩

/-! ## Branch lemmas for `commit_execution_usage` -/

/-- The CAS-success branch of `commit_execution_usage`. -/
theorem commitExecutionUsage_cas (sha : String → String) (st : DBState)
    (agent eid : String) (est act p c : Int) (mn : Option String) (rb : Option JValue)
    (sc : Int) (ex : ExecutionRow) (hex : findExecution st eid = some ex)
    (hnc : ex.state ≠ .COMMITTED) (r : ReservationRow)
    (hres : findReservation st eid = some r) (hr : r.state = .RESERVED) :
    commitExecutionUsage sha st agent eid est act p c mn rb sc
      = (stAppendCompat
          (stAppendEvent sha
            (updateExecution
              (updateAgent
                (updateReservation st eid
                  (fun r => { r with state := .COMMITTED, actual_micro := act }))
                agent (fun a =>
                  { a with reserved_micro := max 0 (a.reserved_micro - est)
                           spent_micro := a.spent_micro + act
                           tokens_used_prompt := a.tokens_used_prompt + p
                           tokens_used_completion := a.tokens_used_completion + c }))
              eid (fun e =>
                { e with state := .COMMITTED, status_code := some sc
                         response_body := rb.map pyDumps, error_body := none }))
            { execution_id := eid, agent := some agent
              tenant_id := some (scopeOf (some (coalesceScope ex.tenant_id)) "default")
              project_id := some (scopeOf (some (coalesceScope ex.project_id)) "default")
              event_type := "usage.commit"
              payload := [("cost_micro", .int act), ("estimated_micro", .int est),
                          ("prompt_tokens", .int p), ("completion_tokens", .int c),
                          ("model", match mn with | some m => .str m | none => .null)] })
          (some agent) (some (scopeOf (some (coalesceScope ex.tenant_id)) "default"))
          (some (scopeOf (some (coalesceScope ex.project_id)) "default"))
          "usage.commit" act,
        .ok ()) := by
  unfold commitExecutionUsage
  simp [hex, hnc, hres, hr]

/-- The zero-rows branches of `commit_execution_usage`. -/
theorem commitExecutionUsage_no_cas (sha : String → String) (st : DBState)
    (agent eid : String) (est act p c : Int) (mn : Option String) (rb : Option JValue)
    (sc : Int) (ex : ExecutionRow) (hex : findExecution st eid = some ex)
    (hnc : ex.state ≠ .COMMITTED) :
    (findReservation st eid = none →
      commitExecutionUsage sha st agent eid est act p c mn rb sc
        = (st, .error (.runtime "Reservation CAS failed; refusing duplicate settlement"))) ∧
    (∀ r, findReservation st eid = some r → r.state = .COMMITTED →
      commitExecutionUsage sha st agent eid est act p c mn rb sc = (st, .ok ())) ∧
    (∀ r, findReservation st eid = some r → r.state = .RELEASED →
      commitExecutionUsage sha st agent eid est act p c mn rb sc
        = (st, .error (.runtime "Reservation CAS failed; refusing duplicate settlement"))) := by
  refine ⟨fun hres => ?_, fun r hres hr => ?_, fun r hres hr => ?_⟩
  · unfold commitExecutionUsage
    simp [hex, hnc, hres]
  · unfold commitExecutionUsage
    simp [hex, hnc, hres, hr]
  · unfold commitExecutionUsage
    simp [hex, hnc, hres, hr]

/-! ## C4 — commit settles by compare-and-swap -/

/-- C4.  `commit_execution_usage` on an existing, not-yet-COMMITTED execution:
when the reservation is RESERVED the CAS succeeds — the reservation becomes
COMMITTED with `actual_micro`, the agent gets `reserved = max(0, reserved -
estimated)`, `spent += actual`, the token counters bumped, and the execution
becomes COMMITTED with the status code and response body; when zero rows are
affected it returns without change if the reservation is already COMMITTED
and raises (RuntimeError, rolled back) if the reservation is missing or
RELEASED. -/
theorem C4_commit_cas_semantics (sha : String → String) (st : DBState)
    (agent eid : String) (est act p c : Int) (mn : Option String) (rb : Option JValue)
    (sc : Int) (ex : ExecutionRow) (hex : findExecution st eid = some ex)
    (hnc : ex.state ≠ .COMMITTED) :
    (findReservation st eid = none →
      commitExecutionUsage sha st agent eid est act p c mn rb sc
        = (st, .error (.runtime "Reservation CAS failed; refusing duplicate settlement"))) ∧
    (∀ r, findReservation st eid = some r → r.state = .COMMITTED →
      commitExecutionUsage sha st agent eid est act p c mn rb sc = (st, .ok ())) ∧
    (∀ r, findReservation st eid = some r → r.state = .RELEASED →
      commitExecutionUsage sha st agent eid est act p c mn rb sc
        = (st, .error (.runtime "Reservation CAS failed; refusing duplicate settlement"))) ∧
    (∀ r, findReservation st eid = some r → r.state = .RESERVED →
      (commitExecutionUsage sha st agent eid est act p c mn rb sc).2 = .ok () ∧
      findReservation (commitExecutionUsage sha st agent eid est act p c mn rb sc).1 eid
        = some { r with state := .COMMITTED, actual_micro := act } ∧
      (∀ a0, findAgent st agent = some a0 →
        findAgent (commitExecutionUsage sha st agent eid est act p c mn rb sc).1 agent
          = some { a0 with reserved_micro := max 0 (a0.reserved_micro - est)
                           spent_micro := a0.spent_micro + act
                           tokens_used_prompt := a0.tokens_used_prompt + p
                           tokens_used_completion := a0.tokens_used_completion + c }) ∧
      findExecution (commitExecutionUsage sha st agent eid est act p c mn rb sc).1 eid
        = some { ex with state := .COMMITTED, status_code := some sc
                         response_body := rb.map pyDumps, error_body := none }) := by
  obtain ⟨h1, h2, h3⟩ := commitExecutionUsage_no_cas sha st agent eid est act p c mn rb sc
    ex hex hnc
  refine ⟨h1, h2, h3, fun r hres hr => ?_⟩
  have hval := commitExecutionUsage_cas sha st agent eid est act p c mn rb sc ex hex hnc
    r hres hr
  rw [hval]
  refine ⟨rfl, ?_, fun a0 ha0 => ?_, ?_⟩
  · rw [findReservation_stAppendCompat, findReservation_stAppendEvent,
      findReservation_updateExecution, findReservation_updateAgent,
      findReservation_update_found _ _ _ _ hres (findReservation_eid st eid r hres)]
  · rw [findAgent_stAppendCompat, findAgent_stAppendEvent, findAgent_updateExecution,
      findAgent_update_found _ _ _ _ (by rw [findAgent_updateReservation]; exact ha0)
        (findAgent_name st agent a0 ha0)]
  · rw [findExecution_stAppendCompat, findExecution_stAppendEvent,
      findExecution_update_found _ _ _ _
        (by rw [findExecution_updateAgent, findExecution_updateReservation]; exact hex)
        (findExecution_eid st eid ex hex)]

/-- C4 witness: committing `e1` (RESERVED, estimate 5) with actual 4 settles
the reservation, bumps the counters and commits the execution row. -/
theorem C4_commit_cas_semantics_witness :
    (commitExecutionUsage shaId stepR1 "alice" "e1" 5 4 1 2 (some "m1") none 200).2
        = .ok () ∧
    findAgent (commitExecutionUsage shaId stepR1 "alice" "e1" 5 4 1 2
        (some "m1") none 200).1 "alice"
      = some { agentB with reserved_micro := 0, spent_micro := 4
                           tokens_used_prompt := 1, tokens_used_completion := 2 } := by
  have h := (C4_commit_cas_semantics shaId stepR1 "alice" "e1" 5 4 1 2 (some "m1") none 200
    { execution_id := "e1", tenant_id := "default", project_id := "default"
      agent := "alice", endpoint := "/v1/chat/completions", request_hash := "h1"
      policy_hash := none, route_hash := none, state := .RESERVED
      status_code := none, response_body := none, error_body := none }
    (by decide) (by decide)).2.2.2
    { execution_id := "e1", tenant_id := "default", project_id := "default"
      agent := "alice", estimated_micro := 5, actual_micro := 0
      state := .RESERVED, expiry_at := "t1" }
    (by decide) rfl
  refine ⟨h.1, ?_⟩
  have := h.2.2.1 { agentB with reserved_micro := 5 } (by decide)
  rw [this]
  decide

/-! ## C7 — streaming settlement happens exactly once -/

/-- C7.  For a streaming dispatch whose execution is live (not COMMITTED, not
RELEASED) and whose reservation is RESERVED: a normal stream end commits the
execution with the accumulated token counts and appends exactly one
`usage.commit` event; an exception inside the relay — where the source
invokes release from both the `except` handler and the `finally` block —
settles exactly once: the double release equals a single release, leaving the
execution RELEASED with status 502, the reservation RELEASED, and exactly one
`reservation.release` event; an early client disconnect (only the `finally`
release runs) does the same.  In every case exactly one of commit/release
takes effect and the execution never ends up both COMMITTED and RELEASED. -/
theorem C7_stream_settles_exactly_once (sha : String → String) (st : DBState)
    (agent eid : String) (est inP outP : Int) (mn : String) (pt ct : Int)
    (ex : ExecutionRow) (hex : findExecution st eid = some ex)
    (hns : ¬(ex.state = ExecState.COMMITTED ∨ ex.state = ExecState.RELEASED))
    (r : ReservationRow) (hres : findReservation st eid = some r)
    (hr : r.state = .RESERVED) :
    ((findExecution (streamGeneratorSettle sha st agent eid est inP outP mn pt ct
        .completed) eid).map (fun e => e.state) = some .COMMITTED ∧
     (findReservation (streamGeneratorSettle sha st agent eid est inP outP mn pt ct
        .completed) eid).map (fun r => (r.state, r.actual_micro))
        = some (.COMMITTED, pt * inP + ct * outP) ∧
     ∃ ev, (streamGeneratorSettle sha st agent eid est inP outP mn pt ct
        .completed).event_log = st.event_log ++ [ev] ∧ ev.event_type = "usage.commit") ∧
    (streamGeneratorSettle sha st agent eid est inP outP mn pt ct .erroredBeforeSettle
        = releaseExecutionReservation sha st agent eid est "Streaming relay failed"
            (some 502) ∧
     (findExecution (streamGeneratorSettle sha st agent eid est inP outP mn pt ct
        .erroredBeforeSettle) eid).map (fun e => (e.state, e.status_code))
        = some (.RELEASED, some 502) ∧
     (findReservation (streamGeneratorSettle sha st agent eid est inP outP mn pt ct
        .erroredBeforeSettle) eid).map (fun r => r.state) = some .RELEASED ∧
     ∃ ev, (streamGeneratorSettle sha st agent eid est inP outP mn pt ct
        .erroredBeforeSettle).event_log = st.event_log ++ [ev] ∧
        ev.event_type = "reservation.release") ∧
    ((findExecution (streamGeneratorSettle sha st agent eid est inP outP mn pt ct
        .clientDisconnected) eid).map (fun e => (e.state, e.status_code))
        = some (.RELEASED, some 502) ∧
     (findReservation (streamGeneratorSettle sha st agent eid est inP outP mn pt ct
        .clientDisconnected) eid).map (fun r => r.state) = some .RELEASED ∧
     ∃ ev, (streamGeneratorSettle sha st agent eid est inP outP mn pt ct
        .clientDisconnected).event_log = st.event_log ++ [ev] ∧
        ev.event_type = "reservation.release") := by
  have hnc : ex.state ≠ ExecState.COMMITTED := fun h => hns (Or.inl h)
  refine ⟨?_, ?_, ?_⟩
  · -- normal completion: the commit CAS succeeds
    have hval := commitExecutionUsage_cas sha st agent eid est (pt * inP + ct * outP)
      pt ct (some mn)
      (some (.obj [("stream", .bool true),
                   ("usage", .obj [("prompt_tokens", .int pt),
                                   ("completion_tokens", .int ct)])])) 200
      ex hex hnc r hres hr
    unfold streamGeneratorSettle
    dsimp only
    rw [hval]
    refine ⟨?_, ?_, ⟨_, rfl, rfl⟩⟩
    · rw [findExecution_stAppendCompat, findExecution_stAppendEvent,
        findExecution_update_found _ _ _ _
          (by rw [findExecution_updateAgent, findExecution_updateReservation]; exact hex)
          (findExecution_eid st eid ex hex)]
      rfl
    · rw [findReservation_stAppendCompat, findReservation_stAppendEvent,
        findReservation_updateExecution, findReservation_updateAgent,
        findReservation_update_found _ _ _ _ hres (findReservation_eid st eid r hres)]
      rfl
  · -- exception path: except-handler release then finally release, one effect
    have hval1 := releaseExecutionReservation_cas sha st agent eid est
      "Streaming relay failed" (some 502) ex hex hns r hres hr
    have hexec1 : findExecution (releaseExecutionReservation sha st agent eid est
        "Streaming relay failed" (some 502)) eid
        = some { ex with state := .RELEASED, status_code := some (pyIntOr (some 502) 502)
                         error_body := some (pyDumps (.obj
                           [("detail", .str "Streaming relay failed")])) } := by
      rw [hval1, findExecution_stAppendCompat, findExecution_stAppendEvent,
        findExecution_update_found _ _ _ _
          (by rw [findExecution_updateAgent, findExecution_updateReservation]; exact hex)
          (findExecution_eid st eid ex hex)]
    have hskip2 := releaseExecutionReservation_skip sha
      (releaseExecutionReservation sha st agent eid est "Streaming relay failed" (some 502))
      agent eid est "Streaming ended before settlement" (some 502) _ hexec1 (Or.inr rfl)
    have hsettle : streamGeneratorSettle sha st agent eid est inP outP mn pt ct
        .erroredBeforeSettle
        = releaseExecutionReservation sha st agent eid est "Streaming relay failed"
            (some 502) := by
      unfold streamGeneratorSettle
      rw [hskip2]
    refine ⟨hsettle, ?_, ?_, ?_⟩
    · rw [hsettle, hexec1]
      rfl
    · rw [hsettle, hval1, findReservation_stAppendCompat, findReservation_stAppendEvent,
        findReservation_updateExecution, findReservation_updateAgent,
        findReservation_update_found _ _ _ _ hres (findReservation_eid st eid r hres)]
      rfl
    · rw [hsettle, hval1]
      exact ⟨_, rfl, rfl⟩
  · -- client disconnect: only the finally release runs
    have hval3 := releaseExecutionReservation_cas sha st agent eid est
      "Streaming ended before settlement" (some 502) ex hex hns r hres hr
    have hsettle : streamGeneratorSettle sha st agent eid est inP outP mn pt ct
        .clientDisconnected
        = releaseExecutionReservation sha st agent eid est
            "Streaming ended before settlement" (some 502) := rfl
    refine ⟨?_, ?_, ?_⟩
    · rw [hsettle, hval3, findExecution_stAppendCompat, findExecution_stAppendEvent,
        findExecution_update_found _ _ _ _
          (by rw [findExecution_updateAgent, findExecution_updateReservation]; exact hex)
          (findExecution_eid st eid ex hex)]
      rfl
    · rw [hsettle, hval3, findReservation_stAppendCompat, findReservation_stAppendEvent,
        findReservation_updateExecution, findReservation_updateAgent,
        findReservation_update_found _ _ _ _ hres (findReservation_eid st eid r hres)]
      rfl
    · rw [hsettle, hval3]
      exact ⟨_, rfl, rfl⟩

/-- C7 witness: on the live reservation `e1`, the exception path equals one
release (RELEASED, 502) and the completed path commits. -/
theorem C7_stream_settles_exactly_once_witness :
    (findExecution (streamGeneratorSettle shaId stepR1 "alice" "e1" 5 2 3 "m1" 1 2
        .completed) "e1").map (fun e => e.state) = some .COMMITTED ∧
    streamGeneratorSettle shaId stepR1 "alice" "e1" 5 2 3 "m1" 1 2 .erroredBeforeSettle
      = releaseExecutionReservation shaId stepR1 "alice" "e1" 5 "Streaming relay failed"
          (some 502) := by
  have h := C7_stream_settles_exactly_once shaId stepR1 "alice" "e1" 5 2 3 "m1" 1 2
    { execution_id := "e1", tenant_id := "default", project_id := "default"
      agent := "alice", endpoint := "/v1/chat/completions", request_hash := "h1"
      policy_hash := none, route_hash := none, state := .RESERVED
      status_code := none, response_body := none, error_body := none }
    (by decide) (by decide)
    { execution_id := "e1", tenant_id := "default", project_id := "default"
      agent := "alice", estimated_micro := 5, actual_micro := 0
      state := .RESERVED, expiry_at := "t1" }
    (by decide) rfl
  exact ⟨h.1.1, h.2.1.1⟩

/-! ## Ledger operation traces (for the quantified invariants C2 and C6) -/

/-- One call into the ledger API, as the admission/dispatch layers make them:
`reserve_budget_v2` (with its deny branch), `commit_execution_usage`,
`release_execution_reservation` and `mark_execution_failed`. -/
inductive LedgerOp where
  | reserve (agent eid endpoint rh : String) (est : Int) (ph rth : Option String)
      (expiry : String)
  | commit (agent eid : String) (est act p c : Int) (mn : Option String)
      (rb : Option JValue) (sc : Int)
  | release (agent eid : String) (est : Int) (reason : String) (sc : Option Int)
  | markFailed (eid : String) (reason : String) (sc : Int)
deriving Inhabited

/-- The database state after one ledger call (errors roll back, so the state
an error leaves is whatever the function committed before raising). -/
def applyOp (sha : String → String) (st : DBState) : LedgerOp → DBState
  | .reserve agent eid endpoint rh est ph rth expiry =>
      (reserveBudgetV2 sha st agent none none eid endpoint rh est ph rth expiry).1
  | .commit agent eid est act p c mn rb sc =>
      (commitExecutionUsage sha st agent eid est act p c mn rb sc).1
  | .release agent eid est reason sc =>
      releaseExecutionReservation sha st agent eid est reason sc
  | .markFailed eid reason sc => markExecutionFailed sha st eid reason sc

def runOps (sha : String → String) : DBState → List LedgerOp → DBState
  | st, [] => st
  | st, op :: ops => runOps sha (applyOp sha st op) ops

/-- `SUM(estimated_micro) FILTER (state = RESERVED)` per agent, over a list of
reservation rows. -/
def resSumL : List ReservationRow → String → Int
  | [], _ => 0
  | r :: rs, n =>
      (if r.agent = n ∧ r.state = ResState.RESERVED then r.estimated_micro else 0)
        + resSumL rs n

def resSum (st : DBState) (n : String) : Int := resSumL st.reservations n

theorem resSumL_append (l : List ReservationRow) (row : ReservationRow) (n : String) :
    resSumL (l ++ [row]) n = resSumL l n +
      (if row.agent = n ∧ row.state = ResState.RESERVED then row.estimated_micro else 0) := by
  induction l with
  | nil => simp [resSumL]
  | cons y ys ih =>
    simp only [List.cons_append, resSumL, List.append_eq]
    rw [ih]
    ring

theorem resSumL_nonneg (l : List ReservationRow) (n : String)
    (h : ∀ x ∈ l, 0 ≤ x.estimated_micro) : 0 ≤ resSumL l n := by
  induction l with
  | nil => simp [resSumL]
  | cons y ys ih =>
    have hy := h y (by simp)
    have hys := ih (fun x hx => h x (by simp [hx]))
    have hterm : (0 : Int) ≤ if y.agent = n ∧ y.state = ResState.RESERVED
        then y.estimated_micro else 0 := by
      split
      · exact hy
      · exact le_refl 0
    unfold resSumL
    omega

theorem resSumL_lower (l : List ReservationRow) (eid : String) (r : ReservationRow)
    (hf : l.find? (fun x => x.execution_id = eid) = some r)
    (hr : r.state = ResState.RESERVED)
    (hnn : ∀ x ∈ l, 0 ≤ x.estimated_micro) (n : String) :
    (if r.agent = n then r.estimated_micro else 0) ≤ resSumL l n := by
  induction l with
  | nil => cases hf
  | cons y ys ih =>
    by_cases hy : y.execution_id = eid
    · rw [List.find?_cons_of_pos _ (by simp [hy])] at hf
      cases hf
      have hys := resSumL_nonneg ys n (fun x hx => hnn x (by simp [hx]))
      unfold resSumL
      rw [hr]
      by_cases hag : r.agent = n <;> simp [hag] <;> omega
    · rw [List.find?_cons_of_neg _ (by simp [hy])] at hf
      have hrec := ih hf (fun x hx => hnn x (by simp [hx]))
      have hy0 : (0 : Int) ≤ if y.agent = n ∧ y.state = ResState.RESERVED
          then y.estimated_micro else 0 := by
        split
        · exact hnn y (by simp)
        · exact le_refl 0
      unfold resSumL
      omega

theorem resSumL_update_flip (l : List ReservationRow) (eid : String)
    (f : ReservationRow → ReservationRow) (r : ReservationRow)
    (hnd : (l.map (fun x => x.execution_id)).Nodup)
    (hf : l.find? (fun x => x.execution_id = eid) = some r)
    (hr : r.state = ResState.RESERVED)
    (hs : (f r).state ≠ ResState.RESERVED) (n : String) :
    resSumL (l.map (fun x => if x.execution_id = eid then f x else x)) n
      = resSumL l n - (if r.agent = n then r.estimated_micro else 0) := by
  induction l with
  | nil => cases hf
  | cons y ys ih =>
    by_cases hy : y.execution_id = eid
    · rw [List.find?_cons_of_pos _ (by simp [hy])] at hf
      cases hf
      have htail : ∀ x ∈ ys, x.execution_id ≠ eid := by
        intro x hx hxe
        have hmem : r.execution_id ∈ ys.map (fun x => x.execution_id) := by
          rw [hy, ← hxe]
          exact List.mem_map_of_mem _ hx
        simp only [List.map_cons, List.nodup_cons] at hnd
        exact hnd.1 hmem
      have hmap : ys.map (fun x => if x.execution_id = eid then f x else x) = ys := by
        rw [List.map_congr_left (g := id) (fun x hx => by simp [htail x hx]), List.map_id]
      simp only [List.map_cons, if_pos hy, hmap]
      unfold resSumL
      rw [hr]
      have hfs : ¬((f r).agent = n ∧ (f r).state = ResState.RESERVED) := by
        intro hcon
        exact hs hcon.2
      rw [if_neg hfs]
      by_cases hag : r.agent = n <;> simp [hag] <;> omega
    · rw [List.find?_cons_of_neg _ (by simp [hy])] at hf
      simp only [List.map_cons, if_neg hy]
      have hnd' : (ys.map (fun x => x.execution_id)).Nodup := by
        simp only [List.map_cons, List.nodup_cons] at hnd
        exact hnd.2
      unfold resSumL
      rw [ih hnd' hf]
      ring

theorem key_not_mem_of_find?_none {α : Type} (l : List α) (k : α → String) (n : String)
    (h : l.find? (fun x => k x = n) = none) : n ∉ l.map k := by
  intro hmem
  obtain ⟨x, hx, hk⟩ := List.mem_map.mp hmem
  have := List.find?_eq_none.mp h x hx
  simp [hk] at this

theorem mem_unique_of_nodup_key {α : Type} (l : List α) (k : α → String) (n : String)
    (hnd : (l.map k).Nodup) (row : α) (hf : l.find? (fun x => k x = n) = some row) :
    ∀ x ∈ l, k x = n → x = row := by
  induction l with
  | nil => cases hf
  | cons y ys ih =>
    intro x hx hkx
    by_cases hy : k y = n
    · rw [List.find?_cons_of_pos _ (by simp [hy])] at hf
      cases hf
      rcases List.mem_cons.mp hx with hx | hx
      · exact hx
      · exfalso
        have hmem : k row ∈ ys.map k := by
          rw [hy, ← hkx]
          exact List.mem_map_of_mem _ hx
        simp only [List.map_cons, List.nodup_cons] at hnd
        exact hnd.1 hmem
    · rw [List.find?_cons_of_neg _ (by simp [hy])] at hf
      have hnd' : (ys.map k).Nodup := by
        simp only [List.map_cons, List.nodup_cons] at hnd
        exact hnd.2
      rcases List.mem_cons.mp hx with hx | hx
      · rw [hx] at hkx
        exact absurd hkx hy
      · exact ih hnd' hf x hx hkx

/-- The strengthened per-state invariant behind C2: distinct agent names and
reservation ids, nonnegative reserved estimates, and per agent row: budget
and spent nonnegative, the live `reserved_micro` equals the sum of its
RESERVED reservations, and `spent + reserved-sum ≤ budget`. -/
def StrongInv (st : DBState) : Prop :=
  (st.agents.map (fun a => a.name)).Nodup ∧
  (st.reservations.map (fun r => r.execution_id)).Nodup ∧
  (∀ r ∈ st.reservations, 0 ≤ r.estimated_micro) ∧
  (∀ a ∈ st.agents, 0 ≤ a.budget_micro ∧ 0 ≤ a.spent_micro ∧
    a.reserved_micro = resSum st a.name ∧
    a.spent_micro + resSum st a.name ≤ a.budget_micro)

/-- The call-site discipline under which C2's invariant is provable: amounts
are nonnegative, commit passes the reserved estimate and its reservation's
agent with `actual ≤ estimated`, and release passes the reserved estimate and
agent.  (The admission/dispatch code always calls with exactly these values:
`estimated_cost_micro` flows from the reservation it created.) -/
def admissibleOpB (st : DBState) : LedgerOp → Bool
  | .reserve _ _ _ _ est _ _ _ => decide (0 ≤ est)
  | .commit agent eid est act p c _ _ _ =>
      decide (0 ≤ est) && decide (0 ≤ act) && decide (0 ≤ p) && decide (0 ≤ c) &&
      decide (act ≤ est) &&
      (match findReservation st eid with
       | some r => !(r.state == ResState.RESERVED) ||
           (r.agent == agent && r.estimated_micro == est)
       | none => true)
  | .release agent eid est _ _ =>
      decide (0 ≤ est) &&
      (match findReservation st eid with
       | some r => !(r.state == ResState.RESERVED) ||
           (r.agent == agent && r.estimated_micro == est)
       | none => true)
  | .markFailed _ _ _ => true

def admissibleTrace (sha : String → String) : DBState → List LedgerOp → Bool
  | _, [] => true
  | st, op :: ops => admissibleOpB st op && admissibleTrace sha (applyOp sha st op) ops

end AEX

namespace AEX
theorem reserveExecUpsert_agents (st : DBState) (a ts ps eid ep rh : String)
    (ph rth : Option String) (E : Option ExecutionRow) :
    (reserveExecUpsert st a ts ps eid ep rh ph rth E).agents = st.agents := by
  cases E <;> rfl

theorem reserveExecUpsert_reservations (st : DBState) (a ts ps eid ep rh : String)
    (ph rth : Option String) (E : Option ExecutionRow) :
    (reserveExecUpsert st a ts ps eid ep rh ph rth E).reservations = st.reservations := by
  cases E <;> rfl

theorem strongInv_transport (st st' : DBState) (hA : st'.agents = st.agents)
    (hR : st'.reservations = st.reservations) (h : StrongInv st) : StrongInv st' := by
  unfold StrongInv resSum at *
  rw [hA, hR]
  exact h

theorem nodup_map_key_append {α : Type} (l : List α) (x : α) (k : α → String)
    (hnd : (l.map k).Nodup) (hx : k x ∉ l.map k) : ((l ++ [x]).map k).Nodup := by
  rw [List.map_append]
  simp [List.nodup_append, hnd, hx]

theorem StrongInv_of_components (st' : DBState) (ag : List AgentRow)
    (res : List ReservationRow) (hA : st'.agents = ag) (hR : st'.reservations = res)
    (h1 : (ag.map (fun a => a.name)).Nodup)
    (h2 : (res.map (fun r => r.execution_id)).Nodup)
    (h3 : ∀ r ∈ res, 0 ≤ r.estimated_micro)
    (h4 : ∀ a ∈ ag, 0 ≤ a.budget_micro ∧ 0 ≤ a.spent_micro ∧
      a.reserved_micro = resSumL res a.name ∧
      a.spent_micro + resSumL res a.name ≤ a.budget_micro) : StrongInv st' := by
  unfold StrongInv resSum
  rw [hA, hR]
  exact ⟨h1, h2, h3, h4⟩

theorem resSumL_snoc_reserved (l : List ReservationRow) (e t p ag : String) (est : Int)
    (exp n : String) :
    resSumL (l ++ [ReservationRow.mk e t p ag est 0 ResState.RESERVED exp]) n
      = resSumL l n + (if ag = n then est else 0) := by
  rw [resSumL_append]
  congr 1
  by_cases h : ag = n
  · rw [if_pos (show (ReservationRow.mk e t p ag est 0 ResState.RESERVED exp).agent = n ∧
        (ReservationRow.mk e t p ag est 0 ResState.RESERVED exp).state = ResState.RESERVED
        from ⟨h, rfl⟩), if_pos h]
  · rw [if_neg (show ¬((ReservationRow.mk e t p ag est 0 ResState.RESERVED exp).agent = n ∧
        (ReservationRow.mk e t p ag est 0 ResState.RESERVED exp).state = ResState.RESERVED)
        from fun hc => h hc.1), if_neg h]

theorem strongInv_core (sha : String → String) (st : DBState)
    (agent ts ps eid endpoint rh : String) (est : Int) (ph rth : Option String)
    (expiry : String) (agentRow : AgentRow)
    (hagent : findAgent st agent = some agentRow)
    (hinv : StrongInv st) (hest : 0 ≤ est) :
    StrongInv (reserveBudgetCore sha st agent ts ps eid endpoint rh est ph rth expiry
      agentRow (findExecution st eid) (findReservation st eid)).1 := by
  obtain ⟨hndA, hndR, hnn, hag⟩ := hinv
  unfold reserveBudgetCore
  by_cases hreuse : (match findReservation st eid with
      | some r => r.state == ResState.RESERVED | none => false) = true
  · rw [if_pos hreuse]
    exact ⟨hndA, hndR, hnn, hag⟩
  · rw [if_neg hreuse]
    dsimp only
    by_cases hover : est > agentRow.budget_micro - agentRow.spent_micro - agentRow.reserved_micro
    · rw [if_pos hover]
      refine strongInv_transport st _ ?_ ?_ ⟨hndA, hndR, hnn, hag⟩
      · rw [agents_stAppendCompat, agents_stAppendEvent, agents_updateExecution,
          reserveExecUpsert_agents]
      · rw [reservations_stAppendCompat, reservations_stAppendEvent,
          reservations_updateExecution, reserveExecUpsert_reservations]
    · rw [if_neg hover]
      cases hR : findReservation st eid with
      | some r =>
        simp only [hR]
        refine strongInv_transport st _ ?_ ?_ ⟨hndA, hndR, hnn, hag⟩
        · rw [reserveExecUpsert_agents]
        · rw [reserveExecUpsert_reservations]
      | none =>
        simp only [hR]
        refine StrongInv_of_components _
          (st.agents.map (fun a => if a.name = agent
            then { a with reserved_micro := a.reserved_micro + est } else a))
          (st.reservations ++ [{ execution_id := eid, tenant_id := ts, project_id := ps,
                                 agent := agent, estimated_micro := est, actual_micro := 0,
                                 state := ResState.RESERVED, expiry_at := expiry }]) ?_ ?_ ?_ ?_ ?_ ?_
        · simp only [agents_stAppendCompat, agents_stAppendEvent, agents_updateExecution,
            agents_updateAgent_eq]
          rw [reserveExecUpsert_agents]
        · simp only [reservations_stAppendCompat, reservations_stAppendEvent,
            reservations_updateExecution, reservations_updateAgent]
          rw [reserveExecUpsert_reservations]
        · rw [List.map_map]
          have heq : st.agents.map (fun a => ((if a.name = agent
              then { a with reserved_micro := a.reserved_micro + est } else a) : AgentRow).name)
              = st.agents.map (fun a => a.name) :=
            List.map_congr_left (fun a _ => by by_cases h : a.name = agent <;> simp [h])
          rw [show ((fun a => a.name) ∘ (fun a => if a.name = agent
              then { a with reserved_micro := a.reserved_micro + est } else a))
              = (fun (a : AgentRow) => ((if a.name = agent
              then { a with reserved_micro := a.reserved_micro + est } else a) : AgentRow).name)
            from rfl, heq]
          exact hndA
        · refine nodup_map_key_append _ _ _ hndR ?_
          refine key_not_mem_of_find?_none st.reservations (fun r => r.execution_id) eid ?_
          unfold findReservation at hR
          exact hR
        · intro r hr
          rcases List.mem_append.mp hr with h | h
          · exact hnn r h
          · simp only [List.mem_singleton] at h
            subst h
            exact hest
        · intro a ha
          obtain ⟨a0, ha0, rfl⟩ := List.mem_map.mp ha
          obtain ⟨hb, hs, hrv, hbd⟩ := hag a0 ha0
          unfold resSum at hrv hbd
          rw [resSumL_snoc_reserved]
          by_cases hname : a0.name = agent
          · have ha0eq : a0 = agentRow := by
              refine mem_unique_of_nodup_key st.agents (fun a => a.name) agent hndA agentRow
                ?_ a0 ha0 hname
              unfold findAgent at hagent
              exact hagent
            subst hname
            rw [← ha0eq] at hover
            rw [if_pos rfl]
            refine ⟨hb, hs, ?_, ?_⟩
            · show a0.reserved_micro + est
                = resSumL st.reservations a0.name + (if a0.name = a0.name then est else 0)
              rw [if_pos rfl, hrv]
            · show a0.spent_micro
                + (resSumL st.reservations a0.name + (if a0.name = a0.name then est else 0))
                ≤ a0.budget_micro
              rw [if_pos rfl]
              omega
          · rw [if_neg hname]
            have hcon : ¬(agent = a0.name) := fun hc => hname hc.symm
            rw [if_neg hcon, add_zero]
            exact ⟨hb, hs, hrv, hbd⟩

theorem markExecutionFailed_agents (sha : String → String) (st : DBState)
    (eid reason : String) (sc : Int) :
    (markExecutionFailed sha st eid reason sc).agents = st.agents := by
  unfold markExecutionFailed
  cases findExecution st eid with
  | none => rfl
  | some ex =>
    dsimp only
    split
    · rfl
    · rw [agents_stAppendCompat, agents_stAppendEvent, agents_updateExecution]

theorem markExecutionFailed_reservations (sha : String → String) (st : DBState)
    (eid reason : String) (sc : Int) :
    (markExecutionFailed sha st eid reason sc).reservations = st.reservations := by
  unfold markExecutionFailed
  cases findExecution st eid with
  | none => rfl
  | some ex =>
    dsimp only
    split
    · rfl
    · rw [reservations_stAppendCompat, reservations_stAppendEvent, reservations_updateExecution]

theorem strongInv_markFailed (sha : String → String) (st : DBState)
    (eid reason : String) (sc : Int) (hinv : StrongInv st) :
    StrongInv (markExecutionFailed sha st eid reason sc) :=
  strongInv_transport st _ (markExecutionFailed_agents sha st eid reason sc)
    (markExecutionFailed_reservations sha st eid reason sc) hinv

theorem map_key_map_pres {α : Type} (l : List α) (k : α → String) (f : α → α)
    (h : ∀ x, k (f x) = k x) : (l.map f).map k = l.map k := by
  rw [List.map_map]
  exact List.map_congr_left (fun x _ => h x)

theorem strongInv_release (sha : String → String) (st : DBState)
    (agent eid : String) (est : Int) (reason : String) (sc : Option Int)
    (hinv : StrongInv st) (hest : 0 ≤ est)
    (hres : ∀ r, findReservation st eid = some r → r.state = ResState.RESERVED →
      r.agent = agent ∧ r.estimated_micro = est) :
    StrongInv (releaseExecutionReservation sha st agent eid est reason sc) := by
  obtain ⟨hndA, hndR, hnn, hag⟩ := hinv
  unfold releaseExecutionReservation
  cases hE : findExecution st eid with
  | none => exact ⟨hndA, hndR, hnn, hag⟩
  | some ex =>
    dsimp only
    split
    · exact ⟨hndA, hndR, hnn, hag⟩
    · cases hR : findReservation st eid with
      | none =>
        simp only [hR]
        rw [if_neg (by decide)]
        refine strongInv_transport st _ ?_ ?_ ⟨hndA, hndR, hnn, hag⟩
        · rw [agents_stAppendCompat, agents_stAppendEvent, agents_updateExecution]
        · rw [reservations_stAppendCompat, reservations_stAppendEvent,
            reservations_updateExecution]
      | some r =>
        simp only [hR]
        by_cases hrs : r.state = ResState.RESERVED
        · obtain ⟨hagent, hesteq⟩ := hres r hR hrs
          have hfind : st.reservations.find? (fun x => x.execution_id = eid) = some r := by
            unfold findReservation at hR
            exact hR
          have hlow := resSumL_lower st.reservations eid r hfind hrs hnn
          rw [if_pos (show (r.state == ResState.RESERVED) = true by simp [hrs])]
          refine StrongInv_of_components _
            (st.agents.map (fun a => if a.name = agent
              then { a with reserved_micro := max 0 (a.reserved_micro - est) } else a))
            (st.reservations.map (fun x => if x.execution_id = eid
              then { x with state := ResState.RELEASED } else x)) ?_ ?_ ?_ ?_ ?_ ?_
          · rw [agents_stAppendCompat, agents_stAppendEvent, agents_updateExecution,
              agents_updateAgent_eq, agents_updateReservation]
          · rw [reservations_stAppendCompat, reservations_stAppendEvent,
              reservations_updateExecution, reservations_updateAgent,
              reservations_updateReservation_eq]
          · rw [map_key_map_pres _ _ _
              (fun x => by by_cases h : x.name = agent <;> simp [h])]
            exact hndA
          · rw [map_key_map_pres _ _ _
              (fun x => by by_cases h : x.execution_id = eid <;> simp [h])]
            exact hndR
          · intro x hx
            rcases List.mem_map.mp hx with ⟨x0, hx0, rfl⟩
            by_cases hxe : x0.execution_id = eid
            · rw [if_pos hxe]
              exact hnn x0 hx0
            · rw [if_neg hxe]
              exact hnn x0 hx0
          · intro a ha
            rcases List.mem_map.mp ha with ⟨a0, ha0, rfl⟩
            obtain ⟨hb, hs, hrv, hbd⟩ := hag a0 ha0
            unfold resSum at hrv hbd
            have hflip := resSumL_update_flip st.reservations eid
              (fun x => { x with state := ResState.RELEASED }) r hndR hfind hrs
              (show ¬(({ r with state := ResState.RELEASED } : ReservationRow).state
                = ResState.RESERVED) from fun hc => by cases hc)
            by_cases hname : a0.name = agent
            · subst hname
              rw [if_pos rfl, hflip, if_pos hagent, hesteq]
              have hlw := hlow a0.name
              rw [if_pos hagent, hesteq] at hlw
              refine ⟨hb, hs, ?_, ?_⟩
              · show max 0 (a0.reserved_micro - est) = resSumL st.reservations a0.name - est
                omega
              · show a0.spent_micro + (resSumL st.reservations a0.name - est) ≤ a0.budget_micro
                omega
            · rw [if_neg hname, hflip,
                if_neg (show ¬(r.agent = a0.name) from fun hc => hname (by rw [← hc]; exact hagent)),
                sub_zero]
              exact ⟨hb, hs, hrv, hbd⟩
        · rw [if_neg (show ¬((r.state == ResState.RESERVED) = true) by simp [hrs])]
          refine strongInv_transport st _ ?_ ?_ ⟨hndA, hndR, hnn, hag⟩
          · rw [agents_stAppendCompat, agents_stAppendEvent, agents_updateExecution]
          · rw [reservations_stAppendCompat, reservations_stAppendEvent,
              reservations_updateExecution]

theorem strongInv_commit (sha : String → String) (st : DBState)
    (agent eid : String) (est act p c : Int) (mn : Option String)
    (rb : Option JValue) (sc : Int)
    (hinv : StrongInv st) (hact : 0 ≤ act) (hae : act ≤ est)
    (hres : ∀ r, findReservation st eid = some r → r.state = ResState.RESERVED →
      r.agent = agent ∧ r.estimated_micro = est) :
    StrongInv (commitExecutionUsage sha st agent eid est act p c mn rb sc).1 := by
  obtain ⟨hndA, hndR, hnn, hag⟩ := hinv
  unfold commitExecutionUsage
  cases hE : findExecution st eid with
  | none => exact ⟨hndA, hndR, hnn, hag⟩
  | some ex =>
    dsimp only
    split
    · exact ⟨hndA, hndR, hnn, hag⟩
    · cases hR : findReservation st eid with
      | none =>
        simp only [hR]
        rw [if_neg (by decide)]
        exact ⟨hndA, hndR, hnn, hag⟩
      | some r =>
        simp only [hR]
        by_cases hrs : r.state = ResState.RESERVED
        · obtain ⟨hagent, hesteq⟩ := hres r hR hrs
          have hfind : st.reservations.find? (fun x => x.execution_id = eid) = some r := by
            unfold findReservation at hR
            exact hR
          have hlow := resSumL_lower st.reservations eid r hfind hrs hnn
          rw [if_pos (show (r.state == ResState.RESERVED) = true by simp [hrs])]
          refine StrongInv_of_components _
            (st.agents.map (fun a => if a.name = agent
              then { a with reserved_micro := max 0 (a.reserved_micro - est)
                            spent_micro := a.spent_micro + act
                            tokens_used_prompt := a.tokens_used_prompt + p
                            tokens_used_completion := a.tokens_used_completion + c } else a))
            (st.reservations.map (fun x => if x.execution_id = eid
              then { x with state := ResState.COMMITTED, actual_micro := act } else x))
            ?_ ?_ ?_ ?_ ?_ ?_
          · rw [agents_stAppendCompat, agents_stAppendEvent, agents_updateExecution,
              agents_updateAgent_eq, agents_updateReservation]
          · rw [reservations_stAppendCompat, reservations_stAppendEvent,
              reservations_updateExecution, reservations_updateAgent,
              reservations_updateReservation_eq]
          · rw [map_key_map_pres _ _ _
              (fun x => by by_cases h : x.name = agent <;> simp [h])]
            exact hndA
          · rw [map_key_map_pres _ _ _
              (fun x => by by_cases h : x.execution_id = eid <;> simp [h])]
            exact hndR
          · intro x hx
            rcases List.mem_map.mp hx with ⟨x0, hx0, rfl⟩
            by_cases hxe : x0.execution_id = eid
            · rw [if_pos hxe]
              exact hnn x0 hx0
            · rw [if_neg hxe]
              exact hnn x0 hx0
          · intro a ha
            rcases List.mem_map.mp ha with ⟨a0, ha0, rfl⟩
            obtain ⟨hb, hs, hrv, hbd⟩ := hag a0 ha0
            unfold resSum at hrv hbd
            have hflip := resSumL_update_flip st.reservations eid
              (fun x => { x with state := ResState.COMMITTED, actual_micro := act }) r
              hndR hfind hrs
              (show ¬(({ r with state := ResState.COMMITTED, actual_micro := act }
                : ReservationRow).state = ResState.RESERVED) from fun hc => by cases hc)
            by_cases hname : a0.name = agent
            · subst hname
              rw [if_pos rfl, hflip, if_pos hagent, hesteq]
              have hlw := hlow a0.name
              rw [if_pos hagent, hesteq] at hlw
              refine ⟨hb, ?_, ?_, ?_⟩
              · show (0 : Int) ≤ a0.spent_micro + act
                omega
              · show max 0 (a0.reserved_micro - est) = resSumL st.reservations a0.name - est
                omega
              · show a0.spent_micro + act + (resSumL st.reservations a0.name - est)
                  ≤ a0.budget_micro
                omega
            · rw [if_neg hname, hflip,
                if_neg (show ¬(r.agent = a0.name) from fun hc => hname (by rw [← hc]; exact hagent)),
                sub_zero]
              exact ⟨hb, hs, hrv, hbd⟩
        · rw [if_neg (show ¬((r.state == ResState.RESERVED) = true) by simp [hrs])]
          split
          · exact ⟨hndA, hndR, hnn, hag⟩
          · exact ⟨hndA, hndR, hnn, hag⟩

theorem strongInv_reserve (sha : String → String) (st : DBState)
    (agent eid endpoint rh : String) (est : Int) (ph rth : Option String)
    (expiry : String) (hinv : StrongInv st) (hest : 0 ≤ est) :
    StrongInv (reserveBudgetV2 sha st agent none none eid endpoint rh est ph rth expiry).1 := by
  unfold reserveBudgetV2
  cases hA : findAgent st agent with
  | none => exact hinv
  | some agentRow =>
    dsimp only
    rw [if_neg (by decide)]
    rw [if_neg (by decide)]
    by_cases hlc : lifecycleOrReady agentRow.lifecycle_state ≠ "READY"
    · rw [if_pos hlc]
      exact hinv
    · rw [if_neg hlc]
      by_cases h409 : (match findExecution st eid with
          | some ex => !(ex.request_hash == "") && !(ex.request_hash == rh)
          | none => false) = true
      · rw [if_pos h409]
        exact hinv
      · rw [if_neg h409]
        by_cases hterm : (match findExecution st eid with
            | some ex => isTerminalState ex.state | none => false) = true
        · rw [if_pos hterm]
          cases hE : findExecution st eid <;> simp only [hE] <;> exact hinv
        · rw [if_neg hterm]
          exact strongInv_core sha st agent _ _ eid endpoint rh est ph rth expiry agentRow
            hA hinv hest

theorem strongInv_runOps (sha : String → String) (ops : List LedgerOp) (st : DBState)
    (hinv : StrongInv st) (hadm : admissibleTrace sha st ops = true) :
    StrongInv (runOps sha st ops) := by
  induction ops generalizing st with
  | nil => exact hinv
  | cons op ops ih =>
    unfold admissibleTrace at hadm
    rw [Bool.and_eq_true] at hadm
    obtain ⟨hop, hrest⟩ := hadm
    refine ih (applyOp sha st op) ?_ hrest
    cases op with
    | reserve agent eid endpoint rh est ph rth expiry =>
      unfold admissibleOpB at hop
      rw [decide_eq_true_eq] at hop
      exact strongInv_reserve sha st agent eid endpoint rh est ph rth expiry hinv hop
    | commit agent eid est act p c mn rb sc =>
      unfold admissibleOpB at hop
      simp only [Bool.and_eq_true, decide_eq_true_eq] at hop
      obtain ⟨⟨⟨⟨⟨he, ha⟩, hp⟩, hc⟩, hax⟩, hm⟩ := hop
      refine strongInv_commit sha st agent eid est act p c mn rb sc hinv ha hax ?_
      intro r hfr hstate
      rw [hfr] at hm
      simp only [hstate, beq_self_eq_true, Bool.not_true, Bool.false_or,
        Bool.and_eq_true, beq_iff_eq] at hm
      exact hm
    | release agent eid est reason sc =>
      unfold admissibleOpB at hop
      simp only [Bool.and_eq_true, decide_eq_true_eq] at hop
      obtain ⟨he, hm⟩ := hop
      refine strongInv_release sha st agent eid est reason sc hinv he ?_
      intro r hfr hstate
      rw [hfr] at hm
      simp only [hstate, beq_self_eq_true, Bool.not_true, Bool.false_or,
        Bool.and_eq_true, beq_iff_eq] at hm
      exact hm
    | markFailed eid reason sc =>
      exact strongInv_markFailed sha st eid reason sc hinv

instance strongInvDecidable (st : DBState) : Decidable (StrongInv st) := by
  unfold StrongInv resSum
  exact inferInstance

/-- Trace used to refute the over-estimate half of C2: reserve 50, then commit
with an actual cost of 200 against a budget of 100. -/
def c2OverOps : List LedgerOp :=
  [LedgerOp.reserve "alice" "e1" "/v1/chat/completions" "h1" 50 none none "t1",
   LedgerOp.commit "alice" "e1" 50 200 1 1 none none 200]

/-- Trace for the C2 witness: reserve 5, then commit an actual cost of 4. -/
def c2OkOps : List LedgerOp :=
  [LedgerOp.reserve "alice" "e1" "/v1/chat/completions" "h1" 5 none none "t1",
   LedgerOp.commit "alice" "e1" 5 4 1 1 none none 200]

/-- C2 counterexample: when the actual cost passed to commit (200) exceeds the
reserved estimate (50), `commit_execution_usage` adds the full actual cost to
`spent_micro` with no cap, so the agent ends with spent 200 > budget 100: the
claimed invariant `spent_micro <= budget_micro` fails. -/
theorem C2_commit_over_estimate_counterexample :
    ∃ a ∈ (runOps shaId stFresh c2OverOps).agents,
      ¬(a.spent_micro ≤ a.budget_micro) := by decide

/-- C2 (amended): starting from any state satisfying the ledger invariant, any
sequence of reserve/commit/release/markFailed operations that respects the
call-site discipline (`admissibleTrace`: nonnegative amounts, commit and
release pass their reservation's agent and estimate, and the committed actual
cost is at most the estimate) keeps every agent with
`spent_micro <= budget_micro` and all monetary fields nonnegative.  The
unconditional claim, covering actual > estimated commits, is refuted by
`C2_commit_over_estimate_counterexample`. -/
theorem C2_ledger_invariant (sha : String → String) (st : DBState) (ops : List LedgerOp)
    (hinv : StrongInv st) (hadm : admissibleTrace sha st ops = true) :
    ∀ a ∈ (runOps sha st ops).agents,
      a.spent_micro ≤ a.budget_micro ∧ 0 ≤ a.budget_micro ∧ 0 ≤ a.spent_micro ∧
      0 ≤ a.reserved_micro := by
  obtain ⟨-, -, hnn, hag⟩ := strongInv_runOps sha ops st hinv hadm
  intro a ha
  obtain ⟨hb, hs, hrv, hbd⟩ := hag a ha
  have h0 : 0 ≤ resSum (runOps sha st ops) a.name :=
    resSumL_nonneg _ _ (fun x hx => hnn x hx)
  refine ⟨by omega, hb, hs, ?_⟩
  rw [hrv]
  exact h0

theorem C2_ledger_invariant_witness :
    StrongInv stFresh ∧ admissibleTrace shaId stFresh c2OkOps = true ∧
    ∀ a ∈ (runOps shaId stFresh c2OkOps).agents,
      a.spent_micro ≤ a.budget_micro ∧ 0 ≤ a.budget_micro ∧ 0 ≤ a.spent_micro ∧
      0 ≤ a.reserved_micro :=
  ⟨by decide, by decide,
   C2_ledger_invariant shaId stFresh c2OkOps (by decide) (by decide)⟩

/-! ## C5 — hash-chain audit -/

/-- The partition key the verifier scans under (replay.py:35). -/
def scanPart (row : EventRow) : String :=
  if row.chain_partition = "" then "default" else row.chain_partition

/-- Row passes both checks of the scan loop against the running dictionary. -/
def rowClean (sha : String → String) (prevBy : String → String) (row : EventRow) : Prop :=
  row.prev_hash = prevBy (scanPart row) ∧
  row.event_hash = stableHash sha [prevBy (scanPart row), row.event_type,
    row.execution_id, row.payload_json]

/-- Dictionary update after a clean row (replay.py:51). -/
def stepDict (prevBy : String → String) (row : EventRow) : String → String :=
  fun p => if p = scanPart row then row.event_hash else prevBy p

/-- Every row of the list passes the scan, against the running dictionary. -/
def cleanFrom (sha : String → String) : (String → String) → List EventRow → Prop
  | _, [] => True
  | d, row :: rest => rowClean sha d row ∧ cleanFrom sha (stepDict d row) rest

/-- The rows form one hash chain anchored at `prev`: each row stores the
running previous hash and the recomputed `stable_hash` of its own fields. -/
def chainedFrom (sha : String → String) : String → List EventRow → Prop
  | _, [] => True
  | prev, row :: rest =>
      row.prev_hash = prev ∧
      row.event_hash = stableHash sha [prev, row.event_type, row.execution_id,
        row.payload_json] ∧
      chainedFrom sha row.event_hash rest

/-- The hash at the end of a chain (its anchor when empty). -/
def chainTip : String → List EventRow → String
  | g, [] => g
  | _, row :: rest => chainTip row.event_hash rest

theorem chainTip_append (g : String) (l : List EventRow) (row : EventRow) :
    chainTip g (l ++ [row]) = row.event_hash := by
  induction l generalizing g with
  | nil => rfl
  | cons y ys ih => exact ih y.event_hash

theorem chainedFrom_append (sha : String → String) (g : String) (l : List EventRow)
    (row : EventRow) (h : chainedFrom sha g l)
    (h1 : row.prev_hash = chainTip g l)
    (h2 : row.event_hash = stableHash sha [chainTip g l, row.event_type,
      row.execution_id, row.payload_json]) :
    chainedFrom sha g (l ++ [row]) := by
  induction l generalizing g with
  | nil => exact ⟨h1, h2, trivial⟩
  | cons y ys ih =>
    obtain ⟨hy1, hy2, hrest⟩ := h
    exact ⟨hy1, hy2, ih y.event_hash hrest h1 h2⟩

theorem lastHash_append (log : List EventRow) (row : EventRow) (p : String) :
    lastHash (log ++ [row]) p
      = if row.chain_partition = p then row.event_hash else lastHash log p := by
  unfold lastHash
  rw [List.foldl_append]
  by_cases h : row.chain_partition = p
  · simp [h]
  · simp [h]

theorem appendHashEvent_eq (sha : String → String) (log : List EventRow) (call : AppendCall) :
    appendHashEvent sha log call = log ++ [{
      seq := log.length
      tenant_id := scopeOf call.tenant_id "default"
      project_id := scopeOf call.project_id "default"
      chain_partition := "tenant:" ++ scopeOf call.tenant_id "default"
      execution_id := call.execution_id
      agent := call.agent
      event_type := call.event_type
      payload := call.payload
      payload_json := canonicalJson (.obj call.payload)
      prev_hash := lastHash log ("tenant:" ++ scopeOf call.tenant_id "default")
      event_hash := stableHash sha
        [lastHash log ("tenant:" ++ scopeOf call.tenant_id "default"),
         call.event_type, call.execution_id, canonicalJson (.obj call.payload)] }] := rfl

/-- Invariant maintained by `append_hash_event`: every partition is one chain
anchored at `GENESIS`, and the stored last hash of each partition is that
chain's tip. -/
def BuildInvP (sha : String → String) (log : List EventRow) : Prop :=
  ∀ p, chainedFrom sha GENESIS_HASH (log.filter (fun r => r.chain_partition == p)) ∧
    lastHash log p = chainTip GENESIS_HASH (log.filter (fun r => r.chain_partition == p))

theorem buildInv_snoc (sha : String → String) (log : List EventRow) (row : EventRow)
    (hprev : row.prev_hash = lastHash log row.chain_partition)
    (hhash : row.event_hash = stableHash sha [row.prev_hash, row.event_type,
      row.execution_id, row.payload_json])
    (h : BuildInvP sha log) : BuildInvP sha (log ++ [row]) := by
  intro p
  obtain ⟨hch, hlh⟩ := h p
  rw [List.filter_append, lastHash_append]
  by_cases hp : row.chain_partition = p
  · subst hp
    have hfl : List.filter (fun r => r.chain_partition == row.chain_partition) [row]
        = [row] := by
      simp [List.filter_cons]
    rw [hfl]
    constructor
    · refine chainedFrom_append sha _ _ _ hch ?_ ?_
      · rw [hprev, hlh]
      · rw [hhash, hprev, hlh]
    · rw [if_pos rfl, chainTip_append]
  · have hfl : List.filter (fun r => r.chain_partition == p) [row] = [] := by
      simp [List.filter_cons, hp]
    rw [hfl, List.append_nil, if_neg hp]
    exact ⟨hch, hlh⟩

theorem buildInv_foldl (sha : String → String) (calls : List AppendCall) :
    ∀ log, BuildInvP sha log → BuildInvP sha (calls.foldl (appendHashEvent sha) log) := by
  induction calls with
  | nil => exact fun log h => h
  | cons c cs ih =>
    intro log h
    refine ih _ ?_
    rw [appendHashEvent_eq]
    exact buildInv_snoc sha log _ rfl rfl h

theorem buildInv_buildLog (sha : String → String) (calls : List AppendCall) :
    BuildInvP sha (buildLog sha calls) :=
  buildInv_foldl sha calls [] (fun _ => ⟨trivial, rfl⟩)

theorem verifyScan_cons_clean (sha : String → String) (d : String → String)
    (row : EventRow) (rest : List EventRow) (n : Nat)
    (h1 : row.prev_hash = d (scanPart row))
    (h2 : row.event_hash = stableHash sha [d (scanPart row), row.event_type,
      row.execution_id, row.payload_json]) :
    verifyScan sha (row :: rest) d n = verifyScan sha rest (stepDict d row) (n + 1) := by
  unfold scanPart at h1 h2
  conv_lhs => unfold verifyScan
  dsimp only
  rw [if_neg (fun hc => hc h1), if_neg (fun hc => hc h2)]
  rfl

theorem verifyScan_eq_of_clean (sha : String → String) (A : List EventRow) :
    ∀ (rest : List EventRow) (d : String → String) (n : Nat),
    cleanFrom sha d A →
    verifyScan sha (A ++ rest) d n
      = verifyScan sha rest (A.foldl stepDict d) (n + A.length) := by
  induction A with
  | nil => intro rest d n _; rfl
  | cons row A ih =>
    intro rest d n h
    obtain ⟨⟨h1, h2⟩, hrest⟩ := h
    rw [List.cons_append, verifyScan_cons_clean sha d row (A ++ rest) n h1 h2,
      ih rest (stepDict d row) (n + 1) hrest,
      show n + 1 + A.length = n + (A.length + 1) by omega]
    rfl

theorem verifyScan_deviation (sha : String → String) (d : String → String)
    (row : EventRow) (B : List EventRow) (n : Nat)
    (hdev : ¬ rowClean sha d row) :
    verifyScan sha (row :: B) d n
        = .prevMismatch (scanPart row) row.seq (d (scanPart row)) row.prev_hash ∨
    verifyScan sha (row :: B) d n
        = .hashMismatch (scanPart row) row.seq
            (stableHash sha [d (scanPart row), row.event_type, row.execution_id,
              row.payload_json]) row.event_hash := by
  unfold rowClean at hdev
  unfold verifyScan
  dsimp only
  rw [show (if row.chain_partition = "" then "default" else row.chain_partition)
      = scanPart row from rfl]
  by_cases h1 : row.prev_hash = d (scanPart row)
  · have h2 : ¬(row.event_hash = stableHash sha [d (scanPart row), row.event_type,
        row.execution_id, row.payload_json]) := fun h2 => hdev ⟨h1, h2⟩
    right
    rw [if_neg (fun hc => hc h1), if_pos h2]
  · left
    rw [if_pos h1]

theorem verifyScan_ok (sha : String → String) (rows : List EventRow) :
    ∀ (d : String → String) (n : Nat),
    (∀ r ∈ rows, ¬(r.chain_partition = "")) →
    (∀ p, chainedFrom sha (d p) (rows.filter (fun r => r.chain_partition == p))) →
    verifyScan sha rows d n = .ok (n + rows.length) := by
  induction rows with
  | nil => intro d n _ _; rfl
  | cons row rest ih =>
    intro d n hne hch
    have hq := hch row.chain_partition
    have hqcond : (row.chain_partition == row.chain_partition) = true := by simp
    rw [List.filter_cons, if_pos hqcond] at hq
    obtain ⟨h1, h2, h3⟩ := hq
    have hsp : scanPart row = row.chain_partition := if_neg (hne row (by simp))
    rw [verifyScan_cons_clean sha d row rest n (by rw [hsp]; exact h1)
      (by rw [hsp]; exact h2)]
    rw [ih (stepDict d row) (n + 1) (fun r hr => hne r (by simp [hr])) ?_]
    · rw [show n + 1 + rest.length = n + (rest.length + 1) by omega]
      rfl
    · intro p
      by_cases hp : p = row.chain_partition
      · subst hp
        unfold stepDict
        rw [hsp, if_pos rfl]
        exact h3
      · have hq2 := hch p
        have hq2cond : ¬((row.chain_partition == p) = true) := by
          simp only [beq_iff_eq]
          exact fun hc => hp hc.symm
        rw [List.filter_cons, if_neg hq2cond] at hq2
        unfold stepDict
        rw [hsp, if_neg hp]
        exact hq2

instance : IsTotal EventRow rowLE :=
  ⟨fun a b => by
    unfold rowLE
    rcases lt_trichotomy a.chain_partition b.chain_partition with h | h | h
    · exact Or.inl (Or.inl h)
    · rcases Nat.le_total a.seq b.seq with hs | hs
      · exact Or.inl (Or.inr ⟨h, hs⟩)
      · exact Or.inr (Or.inr ⟨h.symm, hs⟩)
    · exact Or.inr (Or.inl h)⟩

instance : IsTrans EventRow rowLE :=
  ⟨fun a b c hab hbc => by
    unfold rowLE at *
    rcases hab with h1 | ⟨h1, hs1⟩
    · rcases hbc with h2 | ⟨h2, hs2⟩
      · exact Or.inl (lt_trans h1 h2)
      · exact Or.inl (h2 ▸ h1)
    · rcases hbc with h2 | ⟨h2, hs2⟩
      · exact Or.inl (h1 ▸ h2)
      · exact Or.inr ⟨h1.trans h2, le_trans hs1 hs2⟩⟩

/-- Strict order on stored sequence numbers. -/
def seqLT (a b : EventRow) : Prop := a.seq < b.seq

instance : IsAntisymm EventRow seqLT :=
  ⟨fun a b h1 h2 => absurd (Nat.lt_trans h1 h2) (Nat.lt_irrefl a.seq)⟩

theorem buildLog_seqs_from (sha : String → String) (calls : List AppendCall) :
    ∀ log : List EventRow,
    (calls.foldl (appendHashEvent sha) log).map (fun r => r.seq)
      = log.map (fun r => r.seq) ++ List.range' log.length calls.length := by
  induction calls with
  | nil => intro log; simp [List.range']
  | cons c cs ih =>
    intro log
    show (cs.foldl (appendHashEvent sha) (appendHashEvent sha log c)).map (fun r => r.seq) = _
    rw [ih (appendHashEvent sha log c), appendHashEvent_eq]
    simp only [List.map_append, List.length_append, List.map_cons, List.map_nil,
      List.length_cons, List.length_nil]
    rw [List.append_assoc]
    congr 1

theorem buildLog_seqs (sha : String → String) (calls : List AppendCall) :
    (buildLog sha calls).map (fun r => r.seq) = List.range' 0 calls.length := by
  have h := buildLog_seqs_from sha calls []
  simpa using h

theorem buildLog_length (sha : String → String) (calls : List AppendCall) :
    (buildLog sha calls).length = calls.length := by
  have h := congrArg List.length (buildLog_seqs sha calls)
  rwa [List.length_map, List.length_range'] at h

theorem buildLog_pairwise_seq (sha : String → String) (calls : List AppendCall) :
    (buildLog sha calls).Pairwise seqLT := by
  have h : List.Pairwise (fun a b => a < b) ((buildLog sha calls).map (fun r => r.seq)) := by
    rw [buildLog_seqs]
    exact List.pairwise_lt_range' 0 calls.length
  exact (@List.pairwise_map EventRow Nat (fun r => r.seq) (fun a b => a < b)
    (buildLog sha calls)).mp h

theorem tenant_prefix_ne (tn : String) : ¬("tenant:" ++ tn = "") := by
  intro h
  have hl := congrArg String.length h
  rw [String.length_append] at hl
  have h7 : ("tenant:" : String).length = 7 := rfl
  have h0 : ("" : String).length = 0 := rfl
  rw [h7, h0] at hl
  omega

theorem foldl_partition_ne (sha : String → String) (cs : List AppendCall) :
    ∀ log, (∀ r ∈ log, ¬(r.chain_partition = "")) →
    ∀ r ∈ cs.foldl (appendHashEvent sha) log, ¬(r.chain_partition = "") := by
  induction cs with
  | nil => exact fun log h => h
  | cons c cs ih =>
    intro log h
    refine ih _ ?_
    rw [appendHashEvent_eq]
    intro r hr
    rcases List.mem_append.mp hr with hr | hr
    · exact h r hr
    · simp only [List.mem_singleton] at hr
      subst hr
      exact tenant_prefix_ne _

theorem buildLog_partition_ne (sha : String → String) (calls : List AppendCall) :
    ∀ r ∈ buildLog sha calls, ¬(r.chain_partition = "") :=
  foldl_partition_ne sha calls [] (fun r hr => absurd hr (List.not_mem_nil r))

theorem sorted_filter_eq (sha : String → String) (calls : List AppendCall) (p : String) :
    ((buildLog sha calls).insertionSort rowLE).filter (fun r => r.chain_partition == p)
      = (buildLog sha calls).filter (fun r => r.chain_partition == p) := by
  have hs : List.Sorted rowLE ((buildLog sha calls).insertionSort rowLE) :=
    List.sorted_insertionSort rowLE (buildLog sha calls)
  have hsf := List.Pairwise.filter (fun r => r.chain_partition == p) hs
  have hnd : (((buildLog sha calls).insertionSort rowLE).map (fun r => r.seq)).Nodup := by
    rw [List.Perm.nodup_iff (List.Perm.map _ (List.perm_insertionSort rowLE _)),
      buildLog_seqs]
    exact List.Pairwise.imp (fun h => Nat.ne_of_lt h) (List.pairwise_lt_range' 0 calls.length)
  have hnef := List.Pairwise.filter (fun r => r.chain_partition == p)
    (List.pairwise_map.mp hnd)
  refine List.eq_of_perm_of_sorted (List.Perm.filter _ (List.perm_insertionSort rowLE _))
    ?_ (List.Pairwise.filter _ (buildLog_pairwise_seq sha calls))
  refine List.Pairwise.imp_of_mem ?_ (List.Pairwise.and hsf hnef)
  intro a b ha hb hab
  obtain ⟨hr, hne⟩ := hab
  have hpa : a.chain_partition = p := by
    have := (List.mem_filter.mp ha).2
    exact beq_iff_eq.mp this
  have hpb : b.chain_partition = p := by
    have := (List.mem_filter.mp hb).2
    exact beq_iff_eq.mp this
  rcases hr with hlt | ⟨heq, hle⟩
  · rw [hpa, hpb] at hlt
    exact absurd hlt (lt_irrefl p)
  · exact Nat.lt_of_le_of_ne hle hne

theorem verifyHashChain_buildLog_ok (sha : String → String) (calls : List AppendCall) :
    verifyHashChain sha (buildLog sha calls) = .ok calls.length := by
  unfold verifyHashChain
  rw [verifyScan_ok sha _ (fun _ => GENESIS_HASH) 0
    (fun r hr => buildLog_partition_ne sha calls r
      ((List.perm_insertionSort rowLE _).mem_iff.mp hr))
    (fun p => by rw [sorted_filter_eq]; exact (buildInv_buildLog sha calls p).1)]
  rw [Nat.zero_add, List.Perm.length_eq (List.perm_insertionSort rowLE _),
    buildLog_length]

/-- One append call used by the C5 witness. -/
def c5Calls : List AppendCall :=
  [{ execution_id := "e1", agent := some "alice", tenant_id := none, project_id := none
     event_type := "budget.reserve", payload := [("estimated_micro", .int 5)] }]

/-- The single stored row of `buildLog shaId c5Calls` with its `event_hash`
overwritten, i.e. a tampered copy of the table. -/
def c5TamperRow : EventRow :=
  { seq := 0, tenant_id := "default", project_id := "default"
    chain_partition := "tenant:default", execution_id := "e1", agent := some "alice"
    event_type := "budget.reserve", payload := [("estimated_micro", .int 5)]
    payload_json := canonicalJson (.obj [("estimated_micro", .int 5)])
    prev_hash := GENESIS_HASH, event_hash := "deadbeef" }

def c5TamperLog : List EventRow := [c5TamperRow]

/-- C5: an event log produced by `append_hash_event` calls from an empty table
always verifies: `verify_hash_chain` returns ok counting every event, and
within each partition the rows form one chain — the first row's `prev_hash` is
`GENESIS`, each later row's `prev_hash` is the previous row's `event_hash`, and
every `event_hash` is `stable_hash(prev_hash, event_type, execution_id,
payload_json)` (the `chainedFrom` predicate).  Conversely, for any stored
table whose scan order decomposes as a clean prefix `A` followed by a row
violating its local chain equations (which is what altering a
verifier-visible field of a stored row produces, absent a hash collision),
the verifier reports exactly that row's partition and seq as the first
deviation. -/
theorem C5_hash_chain_audit (sha : String → String) (calls : List AppendCall)
    (tampered A B : List EventRow) (row : EventRow)
    (hsort : tampered.insertionSort rowLE = A ++ row :: B)
    (hclean : cleanFrom sha (fun _ => GENESIS_HASH) A)
    (hdev : ¬ rowClean sha (A.foldl stepDict (fun _ => GENESIS_HASH)) row) :
    verifyHashChain sha (buildLog sha calls) = .ok calls.length ∧
    (∀ p, chainedFrom sha GENESIS_HASH
      ((buildLog sha calls).filter (fun r => r.chain_partition == p))) ∧
    (verifyHashChain sha tampered
        = .prevMismatch (scanPart row) row.seq
            ((A.foldl stepDict (fun _ => GENESIS_HASH)) (scanPart row)) row.prev_hash ∨
     verifyHashChain sha tampered
        = .hashMismatch (scanPart row) row.seq
            (stableHash sha [(A.foldl stepDict (fun _ => GENESIS_HASH)) (scanPart row),
              row.event_type, row.execution_id, row.payload_json]) row.event_hash) := by
  refine ⟨verifyHashChain_buildLog_ok sha calls,
    fun p => (buildInv_buildLog sha calls p).1, ?_⟩
  unfold verifyHashChain
  rw [hsort, verifyScan_eq_of_clean sha A (row :: B) _ 0 hclean]
  exact verifyScan_deviation sha _ row B (0 + A.length) hdev

theorem C5_hash_chain_audit_witness :
    (c5TamperLog.insertionSort rowLE = [] ++ c5TamperRow :: []) ∧
    cleanFrom shaId (fun _ => GENESIS_HASH) [] ∧
    (¬ rowClean shaId (List.foldl stepDict (fun _ => GENESIS_HASH) []) c5TamperRow) ∧
    (verifyHashChain shaId (buildLog shaId c5Calls) = .ok c5Calls.length ∧
     (∀ p, chainedFrom shaId GENESIS_HASH
       ((buildLog shaId c5Calls).filter (fun r => r.chain_partition == p))) ∧
     (verifyHashChain shaId c5TamperLog
        = .prevMismatch (scanPart c5TamperRow) c5TamperRow.seq
            ((List.foldl stepDict (fun _ => GENESIS_HASH) []) (scanPart c5TamperRow))
            c5TamperRow.prev_hash ∨
      verifyHashChain shaId c5TamperLog
        = .hashMismatch (scanPart c5TamperRow) c5TamperRow.seq
            (stableHash shaId [(List.foldl stepDict (fun _ => GENESIS_HASH) [])
              (scanPart c5TamperRow), c5TamperRow.event_type, c5TamperRow.execution_id,
              c5TamperRow.payload_json]) c5TamperRow.event_hash)) := by
  have hdev : ¬ rowClean shaId (List.foldl stepDict (fun _ => GENESIS_HASH) [])
      c5TamperRow := by
    unfold rowClean
    decide
  exact ⟨rfl, trivial, hdev,
    C5_hash_chain_audit shaId c5Calls c5TamperLog [] [] c5TamperRow rfl trivial hdev⟩

/-! ## C6 — balance replay vs live counters -/

/-- The per-event balance transition of `replay_ledger_balances`
(replay.py:72-96), factored out of `replayStep`. -/
def replayNext (current : Balance) (row : EventRow) : Balance :=
  let est := jGetInt row.payload "estimated_micro"
  if row.event_type = "budget.reserve" then
    { current with reserved_micro := current.reserved_micro + est }
  else if row.event_type = "usage.commit" then
    let spent := current.spent_micro + jGetInt row.payload "cost_micro"
    if est > 0 then
      { spent_micro := spent, reserved_micro := max 0 (current.reserved_micro - est) }
    else
      { current with spent_micro := spent }
  else if row.event_type = "reservation.release" then
    if est > 0 then
      { current with reserved_micro := max 0 (current.reserved_micro - est) }
    else current
  else current

/-- `SUM(cost_micro)` over the `usage.commit` events of one agent. -/
def sumCommit : List EventRow → String → Int
  | [], _ => 0
  | e :: rest, n =>
      (if e.agent = some n ∧ e.event_type = "usage.commit"
       then jGetInt e.payload "cost_micro" else 0) + sumCommit rest n

theorem sumCommit_append (l : List EventRow) (row : EventRow) (n : String) :
    sumCommit (l ++ [row]) n = sumCommit l n +
      (if row.agent = some n ∧ row.event_type = "usage.commit"
       then jGetInt row.payload "cost_micro" else 0) := by
  induction l with
  | nil => simp [sumCommit]
  | cons y ys ih =>
    simp only [List.cons_append, sumCommit, List.append_eq]
    rw [ih]
    ring

theorem replayBalances_append (log : List EventRow) (e : EventRow) :
    replayBalances (log ++ [e]) = replayStep (replayBalances log) e := by
  unfold replayBalances
  rw [List.foldl_append]
  rfl

theorem find2_replayStep_empty (acc : List (String × Balance)) (e : EventRow)
    (hag : e.agent = some "") :
    replayStep acc e = acc := by
  unfold replayStep
  rw [hag]
  rfl

theorem find2_replayStep_ne (acc : List (String × Balance)) (e : EventRow) (n : String)
    (h : ∀ m, e.agent = some m → ¬(m = n)) :
    ((replayStep acc e).find? (fun x => x.1 = n)).map (fun x => x.2)
      = (acc.find? (fun x => x.1 = n)).map (fun x => x.2) := by
  unfold replayStep
  cases hag : e.agent with
  | none => rfl
  | some m =>
    dsimp only
    by_cases hm : m = ""
    · rw [if_pos hm]
    · rw [if_neg hm]
      have hmn : ¬(m = n) := h m hag
      by_cases hs : (acc.find? (fun x => x.1 = m)).isSome
      · rw [if_pos hs]
        rw [find?_map_of_pres _ _ _ ?_]
        · cases hf : acc.find? (fun x => x.1 = n) with
          | none => rfl
          | some x =>
            have hx1 : x.1 = n := by simpa using List.find?_some hf
            simp only [Option.map_some']
            rw [if_neg (show ¬(x.1 = m) from fun hc => hmn (by rw [← hc]; exact hx1))]
        · intro a
          by_cases ha : a.1 = m
          · rw [if_pos ha]
            simp only [decide_eq_decide]
            rw [ha]
          · rw [if_neg ha]
      · rw [if_neg hs]
        rw [List.find?_append]
        cases hf : acc.find? (fun x => x.1 = n) with
        | some x => rfl
        | none => simp [hmn]

theorem find2_replayStep_self (acc : List (String × Balance)) (e : EventRow) (n : String)
    (hag : e.agent = some n) (hne : ¬(n = "")) :
    ((replayStep acc e).find? (fun x => x.1 = n)).map (fun x => x.2)
      = some (replayNext
          (((acc.find? (fun x => x.1 = n)).map (fun x => x.2)).getD ⟨0, 0⟩) e) := by
  unfold replayStep
  rw [hag]
  dsimp only
  rw [if_neg hne]
  by_cases hs : (acc.find? (fun x => x.1 = n)).isSome
  · rw [if_pos hs]
    obtain ⟨x, hf⟩ := Option.isSome_iff_exists.mp hs
    rw [find?_map_update _ _ _ ?_ x hf ?_]
    · rw [hf]
      have hx1 : x.1 = n := by simpa using List.find?_some hf
      rw [if_pos hx1]
      rfl
    · intro a ha
      have ha' : ¬(a.1 = n) := by simpa using ha
      exact if_neg ha'
    · have hx1 : x.1 = n := by simpa using List.find?_some hf
      rw [if_pos hx1]
      simp
  · rw [if_neg hs]
    have hnone : acc.find? (fun x => x.1 = n) = none :=
      Option.not_isSome_iff_eq_none.mp hs
    rw [find?_append_none _ _ _ hnone, hnone]
    rw [List.find?_cons_of_pos _ (by simp)]
    rfl

theorem replayedFor_append_ne (log : List EventRow) (e : EventRow) (n : String)
    (h : ∀ m, e.agent = some m → ¬(m = n)) :
    replayedFor (log ++ [e]) n = replayedFor log n := by
  unfold replayedFor
  rw [replayBalances_append, find2_replayStep_ne _ _ _ h]

theorem replayedFor_append_empty (log : List EventRow) (e : EventRow)
    (hag : e.agent = some "") (n : String) :
    replayedFor (log ++ [e]) n = replayedFor log n := by
  unfold replayedFor
  rw [replayBalances_append, find2_replayStep_empty _ _ hag]

theorem replayedFor_append_none (log : List EventRow) (e : EventRow)
    (hag : e.agent = none) (n : String) :
    replayedFor (log ++ [e]) n = replayedFor log n := by
  unfold replayedFor
  rw [replayBalances_append]
  unfold replayStep
  rw [hag]

theorem replayedFor_append_self (log : List EventRow) (e : EventRow) (n : String)
    (hag : e.agent = some n) (hne : ¬(n = "")) :
    replayedFor (log ++ [e]) n = replayNext (replayedFor log n) e := by
  unfold replayedFor
  rw [replayBalances_append, find2_replayStep_self _ _ _ hag hne]
  rfl

/-- The coupling invariant behind C6: every agent row has a nonempty name, a
nonnegative reserved counter, its replayed balance equals the live counters,
and the summed `usage.commit` costs equal the live `spent_micro`. -/
def C6Inv (st : DBState) : Prop :=
  ∀ a ∈ st.agents, ¬(a.name = "") ∧ 0 ≤ a.reserved_micro ∧
    replayedFor st.event_log a.name = ⟨a.spent_micro, a.reserved_micro⟩ ∧
    sumCommit st.event_log a.name = a.spent_micro

instance c6InvDecidable (st : DBState) : Decidable (C6Inv st) := by
  unfold C6Inv
  exact inferInstance

theorem c6_frame_pure (st st' : DBState) (hA : st'.agents = st.agents)
    (hL : st'.event_log = st.event_log) (hinv : C6Inv st) : C6Inv st' := by
  intro a ha
  rw [hA] at ha
  rw [hL]
  exact hinv a ha

theorem c6_frame_event (st st' : DBState) {e : EventRow}
    (hL : st'.event_log = st.event_log ++ [e])
    (hA : st'.agents = st.agents)
    (hid : ∀ b, replayNext b e = b)
    (htype : ¬(e.event_type = "usage.commit"))
    (hinv : C6Inv st) : C6Inv st' := by
  intro a ha
  rw [hA] at ha
  obtain ⟨hn, h0, h1, h2⟩ := hinv a ha
  refine ⟨hn, h0, ?_, ?_⟩
  · rw [hL]
    cases hag : e.agent with
    | none => rw [replayedFor_append_none _ _ hag, h1]
    | some m =>
      by_cases hm : m = ""
      · subst hm
        rw [replayedFor_append_empty _ _ hag, h1]
      · by_cases hmn : m = a.name
        · subst hmn
          rw [replayedFor_append_self _ _ _ hag hm, hid, h1]
        · rw [replayedFor_append_ne _ _ _ (fun m2 hm2 => by
            rw [hag] at hm2
            cases hm2
            exact hmn), h1]
  · rw [hL, sumCommit_append, if_neg (fun hc => htype hc.2), add_zero, h2]

theorem c6_reserve_components (st st' : DBState) (agent : String) (est : Int)
    {e : EventRow}
    (hL : st'.event_log = st.event_log ++ [e])
    (hA : st'.agents = st.agents.map (fun a => if a.name = agent
      then { a with reserved_micro := a.reserved_micro + est } else a))
    (heag : e.agent = some agent)
    (hetype : e.event_type = "budget.reserve")
    (hepay : jGetInt e.payload "estimated_micro" = est)
    (hest : 0 ≤ est) (hinv : C6Inv st) : C6Inv st' := by
  have hRN : ∀ b : Balance, replayNext b e
      = ⟨b.spent_micro, b.reserved_micro + est⟩ := by
    intro b
    unfold replayNext
    rw [hetype, hepay, if_pos rfl]
  have hnc : ∀ n, ¬(e.agent = some n ∧ e.event_type = "usage.commit") := by
    intro n hc
    rw [hetype] at hc
    exact absurd hc.2 (by decide)
  intro a ha
  rw [hA] at ha
  obtain ⟨a0, ha0, rfl⟩ := List.mem_map.mp ha
  obtain ⟨hn, h0, h1, h2⟩ := hinv a0 ha0
  by_cases hname : a0.name = agent
  · subst hname
    rw [if_pos rfl]
    refine ⟨hn, ?_, ?_, ?_⟩
    · show (0 : Int) ≤ a0.reserved_micro + est
      omega
    · show replayedFor st'.event_log a0.name = ⟨a0.spent_micro, a0.reserved_micro + est⟩
      rw [hL, replayedFor_append_self _ _ _ heag hn, hRN, h1]
    · show sumCommit st'.event_log a0.name = a0.spent_micro
      rw [hL, sumCommit_append, if_neg (hnc a0.name), add_zero, h2]
  · rw [if_neg hname]
    refine ⟨hn, h0, ?_, ?_⟩
    · rw [hL, replayedFor_append_ne _ _ _ (fun m hm => by
        rw [heag] at hm
        cases hm
        exact fun hc => hname hc.symm), h1]
    · rw [hL, sumCommit_append, if_neg (hnc a0.name), add_zero, h2]

theorem c6_commit_components (st st' : DBState) (agent : String) (est act p c : Int)
    {e : EventRow}
    (hL : st'.event_log = st.event_log ++ [e])
    (hA : st'.agents = st.agents.map (fun a => if a.name = agent
      then { a with reserved_micro := max 0 (a.reserved_micro - est)
                    spent_micro := a.spent_micro + act
                    tokens_used_prompt := a.tokens_used_prompt + p
                    tokens_used_completion := a.tokens_used_completion + c } else a))
    (heag : e.agent = some agent)
    (hetype : e.event_type = "usage.commit")
    (hcost : jGetInt e.payload "cost_micro" = act)
    (hepay : jGetInt e.payload "estimated_micro" = est)
    (hest : 0 ≤ est) (hinv : C6Inv st) : C6Inv st' := by
  have hRN : ∀ b : Balance, replayNext b e
      = if est > 0 then ⟨b.spent_micro + act, max 0 (b.reserved_micro - est)⟩
        else ⟨b.spent_micro + act, b.reserved_micro⟩ := by
    intro b
    unfold replayNext
    rw [hetype, hepay, hcost, if_neg (by decide), if_pos rfl]
  intro a ha
  rw [hA] at ha
  obtain ⟨a0, ha0, rfl⟩ := List.mem_map.mp ha
  obtain ⟨hn, h0, h1, h2⟩ := hinv a0 ha0
  by_cases hname : a0.name = agent
  · subst hname
    rw [if_pos rfl]
    refine ⟨hn, ?_, ?_, ?_⟩
    · show (0 : Int) ≤ max 0 (a0.reserved_micro - est)
      exact le_max_left 0 _
    · show replayedFor st'.event_log a0.name
        = ⟨a0.spent_micro + act, max 0 (a0.reserved_micro - est)⟩
      rw [hL, replayedFor_append_self _ _ _ heag hn, hRN, h1]
      by_cases hgt : est > 0
      · rw [if_pos hgt]
      · rw [if_neg hgt]
        have hmx : max 0 (a0.reserved_micro - est) = a0.reserved_micro := by omega
        rw [hmx]
    · show sumCommit st'.event_log a0.name = a0.spent_micro + act
      rw [hL, sumCommit_append, if_pos ⟨heag, hetype⟩, hcost, h2]
  · rw [if_neg hname]
    refine ⟨hn, h0, ?_, ?_⟩
    · rw [hL, replayedFor_append_ne _ _ _ (fun m hm => by
        rw [heag] at hm
        cases hm
        exact fun hc => hname hc.symm), h1]
    · rw [hL, sumCommit_append,
        if_neg (fun hc => by
          rw [heag] at hc
          exact hname (Option.some.inj hc.1).symm), add_zero, h2]

theorem c6_release_components (st st' : DBState) (agent : String) (est : Int)
    {e : EventRow}
    (hL : st'.event_log = st.event_log ++ [e])
    (hA : st'.agents = st.agents.map (fun a => if a.name = agent
      then { a with reserved_micro := max 0 (a.reserved_micro - est) } else a))
    (heag : e.agent = some agent)
    (hetype : e.event_type = "reservation.release")
    (hepay : jGetInt e.payload "estimated_micro" = est)
    (hest : 0 ≤ est) (hinv : C6Inv st) : C6Inv st' := by
  have hRN : ∀ b : Balance, replayNext b e
      = if est > 0 then ⟨b.spent_micro, max 0 (b.reserved_micro - est)⟩
        else ⟨b.spent_micro, b.reserved_micro⟩ := by
    intro b
    unfold replayNext
    rw [hetype, hepay, if_neg (by decide), if_neg (by decide), if_pos rfl]
  have hnc : ∀ n, ¬(e.agent = some n ∧ e.event_type = "usage.commit") := by
    intro n hc
    rw [hetype] at hc
    exact absurd hc.2 (by decide)
  intro a ha
  rw [hA] at ha
  obtain ⟨a0, ha0, rfl⟩ := List.mem_map.mp ha
  obtain ⟨hn, h0, h1, h2⟩ := hinv a0 ha0
  by_cases hname : a0.name = agent
  · subst hname
    rw [if_pos rfl]
    refine ⟨hn, ?_, ?_, ?_⟩
    · show (0 : Int) ≤ max 0 (a0.reserved_micro - est)
      exact le_max_left 0 _
    · show replayedFor st'.event_log a0.name
        = ⟨a0.spent_micro, max 0 (a0.reserved_micro - est)⟩
      rw [hL, replayedFor_append_self _ _ _ heag hn, hRN, h1]
      by_cases hgt : est > 0
      · rw [if_pos hgt]
      · rw [if_neg hgt]
        have hmx : max 0 (a0.reserved_micro - est) = a0.reserved_micro := by omega
        rw [hmx]
    · show sumCommit st'.event_log a0.name = a0.spent_micro
      rw [hL, sumCommit_append, if_neg (hnc a0.name), add_zero, h2]
  · rw [if_neg hname]
    refine ⟨hn, h0, ?_, ?_⟩
    · rw [hL, replayedFor_append_ne _ _ _ (fun m hm => by
        rw [heag] at hm
        cases hm
        exact fun hc => hname hc.symm), h1]
    · rw [hL, sumCommit_append, if_neg (hnc a0.name), add_zero, h2]

theorem event_log_reserveExecUpsert (st : DBState) (a ts ps eid ep rh : String)
    (ph rth : Option String) (E : Option ExecutionRow) :
    (reserveExecUpsert st a ts ps eid ep rh ph rth E).event_log = st.event_log := by
  cases E <;> rfl

theorem c6Inv_core (sha : String → String) (st : DBState)
    (agent ts ps eid endpoint rh : String) (est : Int) (ph rth : Option String)
    (expiry : String) (agentRow : AgentRow)
    (hinv : C6Inv st) (hest : 0 ≤ est) :
    C6Inv (reserveBudgetCore sha st agent ts ps eid endpoint rh est ph rth expiry
      agentRow (findExecution st eid) (findReservation st eid)).1 := by
  unfold reserveBudgetCore
  by_cases hreuse : (match findReservation st eid with
      | some r => r.state == ResState.RESERVED | none => false) = true
  · rw [if_pos hreuse]
    exact hinv
  · rw [if_neg hreuse]
    dsimp only
    by_cases hover : est > agentRow.budget_micro - agentRow.spent_micro - agentRow.reserved_micro
    · rw [if_pos hover]
      exact c6_frame_event st _
        (by simp only [event_log_stAppendCompat, event_log_stAppendEvent,
              event_log_updateExecution, event_log_reserveExecUpsert]
            rw [appendHashEvent_eq])
        (by rw [agents_stAppendCompat, agents_stAppendEvent, agents_updateExecution,
              reserveExecUpsert_agents])
        (by exact fun b => rfl)
        (by exact fun hc => (by decide : ¬("budget.deny" = "usage.commit")) hc) hinv
    · rw [if_neg hover]
      cases hR : findReservation st eid with
      | some r =>
        simp only [hR]
        refine c6_frame_pure st _ ?_ ?_ hinv
        · rw [reserveExecUpsert_agents]
        · rw [event_log_reserveExecUpsert]
      | none =>
        simp only [hR]
        exact c6_reserve_components st _ agent est
          (by simp only [event_log_stAppendCompat, event_log_stAppendEvent,
                event_log_updateExecution, event_log_updateAgent,
                event_log_reserveExecUpsert]
              rw [appendHashEvent_eq])
          (by simp only [agents_stAppendCompat, agents_stAppendEvent,
                agents_updateExecution, agents_updateAgent_eq]
              rw [reserveExecUpsert_agents])
          (by rfl) (by rfl) (by rfl) hest hinv

theorem c6Inv_reserve (sha : String → String) (st : DBState)
    (agent eid endpoint rh : String) (est : Int) (ph rth : Option String)
    (expiry : String) (hinv : C6Inv st) (hest : 0 ≤ est) :
    C6Inv (reserveBudgetV2 sha st agent none none eid endpoint rh est ph rth expiry).1 := by
  unfold reserveBudgetV2
  cases hA : findAgent st agent with
  | none => exact hinv
  | some agentRow =>
    dsimp only
    rw [if_neg (by decide)]
    rw [if_neg (by decide)]
    by_cases hlc : lifecycleOrReady agentRow.lifecycle_state ≠ "READY"
    · rw [if_pos hlc]
      exact hinv
    · rw [if_neg hlc]
      by_cases h409 : (match findExecution st eid with
          | some ex => !(ex.request_hash == "") && !(ex.request_hash == rh)
          | none => false) = true
      · rw [if_pos h409]
        exact hinv
      · rw [if_neg h409]
        by_cases hterm : (match findExecution st eid with
            | some ex => isTerminalState ex.state | none => false) = true
        · rw [if_pos hterm]
          cases hE : findExecution st eid <;> simp only [hE] <;> exact hinv
        · rw [if_neg hterm]
          exact c6Inv_core sha st agent _ _ eid endpoint rh est ph rth expiry agentRow
            hinv hest

theorem c6Inv_commit (sha : String → String) (st : DBState)
    (agent eid : String) (est act p c : Int) (mn : Option String)
    (rb : Option JValue) (sc : Int)
    (hinv : C6Inv st) (hest : 0 ≤ est) :
    C6Inv (commitExecutionUsage sha st agent eid est act p c mn rb sc).1 := by
  unfold commitExecutionUsage
  cases hE : findExecution st eid with
  | none => exact hinv
  | some ex =>
    dsimp only
    split
    · exact hinv
    · cases hR : findReservation st eid with
      | none =>
        simp only [hR]
        rw [if_neg (by decide)]
        exact hinv
      | some r =>
        simp only [hR]
        by_cases hrs : r.state = ResState.RESERVED
        · rw [if_pos (show (r.state == ResState.RESERVED) = true by simp [hrs])]
          exact c6_commit_components st _ agent est act p c
            (by simp only [event_log_stAppendCompat, event_log_stAppendEvent,
                  event_log_updateExecution, event_log_updateAgent,
                  event_log_updateReservation]
                rw [appendHashEvent_eq])
            (by rw [agents_stAppendCompat, agents_stAppendEvent, agents_updateExecution,
                  agents_updateAgent_eq, agents_updateReservation])
            (by rfl) (by rfl) (by rfl) (by rfl) hest hinv
        · rw [if_neg (show ¬((r.state == ResState.RESERVED) = true) by simp [hrs])]
          split
          · exact hinv
          · exact hinv

theorem c6Inv_release (sha : String → String) (st : DBState)
    (agent eid : String) (est : Int) (reason : String) (sc : Option Int)
    (hinv : C6Inv st) (hest : 0 ≤ est)
    (hrel : ∀ ex, findExecution st eid = some ex →
      ex.state = ExecState.COMMITTED ∨ ex.state = ExecState.RELEASED ∨
      (∃ r, findReservation st eid = some r ∧ r.state = ResState.RESERVED)) :
    C6Inv (releaseExecutionReservation sha st agent eid est reason sc) := by
  unfold releaseExecutionReservation
  cases hE : findExecution st eid with
  | none => exact hinv
  | some ex =>
    dsimp only
    split
    · exact hinv
    · next hskip =>
      cases hR : findReservation st eid with
      | none =>
        exfalso
        rcases hrel ex hE with h | h | ⟨r, hr, _⟩
        · exact hskip (Or.inl h)
        · exact hskip (Or.inr h)
        · rw [hR] at hr
          cases hr
      | some r =>
        simp only [hR]
        by_cases hrs : r.state = ResState.RESERVED
        · rw [if_pos (show (r.state == ResState.RESERVED) = true by simp [hrs])]
          exact c6_release_components st _ agent est
            (by simp only [event_log_stAppendCompat, event_log_stAppendEvent,
                  event_log_updateExecution, event_log_updateAgent,
                  event_log_updateReservation]
                rw [appendHashEvent_eq])
            (by rw [agents_stAppendCompat, agents_stAppendEvent, agents_updateExecution,
                  agents_updateAgent_eq, agents_updateReservation])
            (by rfl) (by rfl) (by rfl) hest hinv
        · exfalso
          rcases hrel ex hE with h | h | ⟨r2, hr2, hrs2⟩
          · exact hskip (Or.inl h)
          · exact hskip (Or.inr h)
          · rw [hR] at hr2
            cases hr2
            exact hrs hrs2

theorem c6Inv_markFailed (sha : String → String) (st : DBState)
    (eid reason : String) (sc : Int) (hinv : C6Inv st) :
    C6Inv (markExecutionFailed sha st eid reason sc) := by
  unfold markExecutionFailed
  cases hE : findExecution st eid with
  | none => exact hinv
  | some ex =>
    dsimp only
    split
    · exact hinv
    · exact c6_frame_event st _
        (by simp only [event_log_stAppendCompat, event_log_stAppendEvent,
              event_log_updateExecution]
            rw [appendHashEvent_eq])
        (by rw [agents_stAppendCompat, agents_stAppendEvent, agents_updateExecution])
        (by exact fun b => rfl)
        (by exact fun hc => (by decide : ¬("execution.failed" = "usage.commit")) hc) hinv

/-- The call-site discipline for C6: nonnegative estimates, and release only
invoked when the execution is already settled (COMMITTED/RELEASED skip) or a
RESERVED reservation exists — which is how dispatch calls it, since release
targets the reservation it made. -/
def admissibleOpC6 (st : DBState) : LedgerOp → Bool
  | .reserve _ _ _ _ est _ _ _ => decide (0 ≤ est)
  | .commit _ _ est _ _ _ _ _ _ => decide (0 ≤ est)
  | .release _ eid est _ _ =>
      decide (0 ≤ est) &&
      (match findExecution st eid with
       | none => true
       | some ex => ex.state == ExecState.COMMITTED || ex.state == ExecState.RELEASED ||
           (match findReservation st eid with
            | some r => r.state == ResState.RESERVED
            | none => false))
  | .markFailed _ _ _ => true

def admissibleTraceC6 (sha : String → String) : DBState → List LedgerOp → Bool
  | _, [] => true
  | st, op :: ops => admissibleOpC6 st op && admissibleTraceC6 sha (applyOp sha st op) ops

theorem c6Inv_runOps (sha : String → String) (ops : List LedgerOp) (st : DBState)
    (hinv : C6Inv st) (hadm : admissibleTraceC6 sha st ops = true) :
    C6Inv (runOps sha st ops) := by
  induction ops generalizing st with
  | nil => exact hinv
  | cons op ops ih =>
    unfold admissibleTraceC6 at hadm
    rw [Bool.and_eq_true] at hadm
    obtain ⟨hop, hrest⟩ := hadm
    refine ih (applyOp sha st op) ?_ hrest
    cases op with
    | reserve agent eid endpoint rh est ph rth expiry =>
      unfold admissibleOpC6 at hop
      rw [decide_eq_true_eq] at hop
      exact c6Inv_reserve sha st agent eid endpoint rh est ph rth expiry hinv hop
    | commit agent eid est act p c mn rb sc =>
      unfold admissibleOpC6 at hop
      rw [decide_eq_true_eq] at hop
      exact c6Inv_commit sha st agent eid est act p c mn rb sc hinv hop
    | release agent eid est reason sc =>
      unfold admissibleOpC6 at hop
      rw [Bool.and_eq_true, decide_eq_true_eq] at hop
      obtain ⟨he, hm⟩ := hop
      refine c6Inv_release sha st agent eid est reason sc hinv he ?_
      intro ex hE
      rw [hE] at hm
      cases hR : findReservation st eid with
      | none =>
        rw [hR] at hm
        rw [Bool.or_eq_true, Bool.or_eq_true] at hm
        rcases hm with (ha | hb) | h2
        · exact Or.inl (beq_iff_eq.mp ha)
        · exact Or.inr (Or.inl (beq_iff_eq.mp hb))
        · exact absurd h2 (by decide)
      | some r =>
        rw [hR] at hm
        rw [Bool.or_eq_true, Bool.or_eq_true] at hm
        rcases hm with (ha | hb) | h2
        · exact Or.inl (beq_iff_eq.mp ha)
        · exact Or.inr (Or.inl (beq_iff_eq.mp hb))
        · exact Or.inr (Or.inr ⟨r, rfl, beq_iff_eq.mp h2⟩)
    | markFailed eid reason sc =>
      exact c6Inv_markFailed sha st eid reason sc hinv

/-- Trace used to refute C6: reserve 5 against a budget of 10, get a second
reservation denied, then release the denied execution (as streaming does for
any not-yet-settled failure): the release appends a `reservation.release`
event even though no reservation was ever made for it. -/
def c6BadOps : List LedgerOp :=
  [LedgerOp.reserve "alice" "e1" "/v1/chat/completions" "h1" 5 none none "t1",
   LedgerOp.reserve "alice" "e2" "/v1/chat/completions" "h2" 7 none none "t2",
   LedgerOp.release "alice" "e2" 7 "client disconnect" none]

/-- C6 counterexample: after a denied reservation is released, the replayed
reserved counter (max(0, 5 - 7) = 0) no longer matches the live
`agents.reserved_micro` (5): `replay_ledger_balances` reports a mismatch on a
state produced only by the ledger operations. -/
theorem C6_release_after_deny_counterexample :
    replayLedgerBalancesOk (runOps shaId stSmall c6BadOps) = false := by decide

/-- C6 (amended): for traces respecting the dispatch discipline
(`admissibleTraceC6`: nonnegative estimates, release only on settled
executions or with a live RESERVED reservation), folding the event log per
agent reproduces exactly the live `agents.spent_micro` and
`agents.reserved_micro`, `replay_ledger_balances` reports ok, and the summed
`usage.commit` costs equal `spent_micro`.  Without that discipline the claim
is false: releasing a DENIED execution appends a `reservation.release` event
that the replay subtracts but the live counters never held
(`C6_release_after_deny_counterexample`). -/
theorem C6_balance_replay (sha : String → String) (st : DBState) (ops : List LedgerOp)
    (hinv : C6Inv st) (hadm : admissibleTraceC6 sha st ops = true) :
    replayLedgerBalancesOk (runOps sha st ops) = true ∧
    ∀ a ∈ (runOps sha st ops).agents,
      replayedFor (runOps sha st ops).event_log a.name
        = ⟨a.spent_micro, a.reserved_micro⟩ ∧
      sumCommit (runOps sha st ops).event_log a.name = a.spent_micro := by
  have h := c6Inv_runOps sha ops st hinv hadm
  constructor
  · unfold replayLedgerBalancesOk
    rw [List.all_eq_true]
    intro a ha
    obtain ⟨-, -, h1, -⟩ := h a ha
    simpa using h1
  · intro a ha
    obtain ⟨-, -, h1, h2⟩ := h a ha
    exact ⟨h1, h2⟩

theorem C6_balance_replay_witness :
    C6Inv stFresh ∧ admissibleTraceC6 shaId stFresh c2OkOps = true ∧
    (replayLedgerBalancesOk (runOps shaId stFresh c2OkOps) = true ∧
     ∀ a ∈ (runOps shaId stFresh c2OkOps).agents,
       replayedFor (runOps shaId stFresh c2OkOps).event_log a.name
         = ⟨a.spent_micro, a.reserved_micro⟩ ∧
       sumCommit (runOps shaId stFresh c2OkOps).event_log a.name = a.spent_micro) :=
  ⟨by decide, by decide,
   C6_balance_replay shaId stFresh c2OkOps (by decide) (by decide)⟩
end AEX
